import Mathlib

/-!
# MemoryScope — verification of spec claims against a shallow embedding

This file embeds the parts of the `memoryscope` Python repository that the
frozen claims C1–C10 are about, and proves or refutes each claim.

Conventions of the embedding:
* Python `datetime` values are modelled as `Nat` timestamps (only ordering and
  equality of timestamps matter to the embedded code paths).
* Python floats that the embedded code compares or combines
  (confidences, weights, fuzzy-match ratios) are modelled as `ℚ`.
  Threshold comparisons such as `ratio >= 0.85` are modelled exactly as
  rational comparisons against `17/20`.
* The SQL store is modelled as an in-memory list of rows; `ORDER BY x DESC`
  is modelled as a stable sort on the list (ties keep insertion order).
* Randomly generated identifiers (`uuid4`, `mem_…`, `con_…`) and
  `datetime.utcnow()` are modelled as explicit oracle parameters, so all
  definitions are pure and executable.
* SHA-256 token hashing (`hash_revocation_token`) is deterministic, so the
  grant endpoints are embedded as functions of the token hash, the value the
  source actually uses as the lookup key.
-/

/-! ## Enumerations (src/app/memoryscope/core_types.py) -/

inductive MemoryType where
  | event | impact | seed
deriving DecidableEq, Repr

def MemoryType.value : MemoryType → String
  | .event => "event"
  | .impact => "impact"
  | .seed => "seed"

inductive TruthMode where
  | factual_claim | subjective_experience | counterfactual | imagined
  | socially_sourced | procedural | somatic | identity_role_bound
deriving DecidableEq, Repr

def TruthMode.value : TruthMode → String
  | .factual_claim => "factual_claim"
  | .subjective_experience => "subjective_experience"
  | .counterfactual => "counterfactual"
  | .imagined => "imagined"
  | .socially_sourced => "socially_sourced"
  | .procedural => "procedural"
  | .somatic => "somatic"
  | .identity_role_bound => "identity_role_bound"

inductive MemoryState where
  | active | restricted | sealed | dormant | revoked | tombstoned
deriving DecidableEq, Repr

def MemoryState.value : MemoryState → String
  | .active => "active"
  | .restricted => "restricted"
  | .sealed => "sealed"
  | .dormant => "dormant"
  | .revoked => "revoked"
  | .tombstoned => "tombstoned"

inductive SensitivityLevel where
  | low | medium | high | critical
deriving DecidableEq, Repr

def SensitivityLevel.value : SensitivityLevel → String
  | .low => "low"
  | .medium => "medium"
  | .high => "high"
  | .critical => "critical"

inductive SensitivityHandling where
  | normal | no_prompt | no_search | sealed_default
deriving DecidableEq, Repr

def SensitivityHandling.value : SensitivityHandling → String
  | .normal => "normal"
  | .no_prompt => "no_prompt"
  | .no_search => "no_search"
  | .sealed_default => "sealed_default"

inductive DisputeState where
  | undisputed | unverified | disputed | contested
deriving DecidableEq, Repr

def DisputeState.value : DisputeState → String
  | .undisputed => "undisputed"
  | .unverified => "unverified"
  | .disputed => "disputed"
  | .contested => "contested"

inductive PurposeType where
  | chat_response | task_execution | safety_filtering
  | reflection_requested_by_user | support_agent_review
  | compliance_audit | debugging_replay
deriving DecidableEq, Repr

def PurposeType.value : PurposeType → String
  | .chat_response => "chat_response"
  | .task_execution => "task_execution"
  | .safety_filtering => "safety_filtering"
  | .reflection_requested_by_user => "reflection_requested_by_user"
  | .support_agent_review => "support_agent_review"
  | .compliance_audit => "compliance_audit"
  | .debugging_replay => "debugging_replay"

inductive ScopeType where
  | user | org | app | session | project | case_ | role
deriving DecidableEq, Repr

def ScopeType.value : ScopeType → String
  | .user => "user"
  | .org => "org"
  | .app => "app"
  | .session => "session"
  | .project => "project"
  | .case_ => "case"
  | .role => "role"

inductive ConstraintKind where
  | avoid | prefer | require | tone | style | boundary | safety
  | clarify_first | ask_permission
deriving DecidableEq, Repr

def ConstraintKind.value : ConstraintKind → String
  | .avoid => "avoid"
  | .prefer => "prefer"
  | .require => "require"
  | .tone => "tone"
  | .style => "style"
  | .boundary => "boundary"
  | .safety => "safety"
  | .clarify_first => "clarify_first"
  | .ask_permission => "ask_permission"

inductive ConstraintTarget where
  | response | prompt_context | tool_execution | memory_ops
deriving DecidableEq, Repr

def ConstraintTarget.value : ConstraintTarget → String
  | .response => "response"
  | .prompt_context => "prompt_context"
  | .tool_execution => "tool_execution"
  | .memory_ops => "memory_ops"

inductive MergeStrategy where
  | latest_wins | max_weight | min_weight | union | intersection | append_only
deriving DecidableEq, Repr

def MergeStrategy.value : MergeStrategy → String
  | .latest_wins => "latest_wins"
  | .max_weight => "max_weight"
  | .min_weight => "min_weight"
  | .union => "union"
  | .intersection => "intersection"
  | .append_only => "append_only"

inductive SourceType where
  | user | system | import_ | human_agent
deriving DecidableEq, Repr

def SourceType.value : SourceType → String
  | .user => "user"
  | .system => "system"
  | .import_ => "import"
  | .human_agent => "human_agent"

inductive ReconsolidationPolicy where
  | never_edit_source | append_only | allow_relabel_affect_only
  | allow_update_claim_confidence
deriving DecidableEq, Repr

/-! ## Nested models (src/app/memoryscope/core_types.py) -/

structure Scope where
  scope_type : ScopeType
  scope_id : String
deriving DecidableEq, Repr

structure Sensitivity where
  level : SensitivityLevel
  categories : List String
  handling : SensitivityHandling := .normal
deriving DecidableEq, Repr

structure Ownership where
  owner_type : String
  owners : List String := []
  claimant : String
  subjects : List String := []
  dispute_state : DisputeState := .undisputed
  visibility : String := "private"
deriving DecidableEq, Repr

structure Temporal where
  occurred_at_observed : Nat
  occurred_at_claimed : Option Nat := none
  time_precision : String := "unknown"
  time_confidence : ℚ := 0
deriving DecidableEq, Repr

structure Content where
  format : String := "text"
  language : String := "en"
  text : Option String := none
deriving DecidableEq, Repr

structure Affect where
  valence : ℚ := 0
  arousal : ℚ := 0
  labels : List String := []
  affect_confidence : ℚ := 0
deriving DecidableEq, Repr

structure Strength where
  initial : ℚ := 3/4
  current : ℚ := 3/4
  decay_model : String := "half_life"
  half_life_days : Option Nat := none
  last_reinforced_at : Option Nat := none
deriving DecidableEq, Repr

structure TransformEntry where
  transform_id : String
  version : String
  run_id : String
deriving DecidableEq, Repr

structure Provenance where
  source : SourceType
  surface : Option String := none
  derived_from : List String := []
  transform_chain : List TransformEntry := []
  policy_version : Option String := none
  confidence : ℚ := 0
deriving DecidableEq, Repr

/-- Parameter values inside a constraint's `params` map
(the extractor only ever stores strings and booleans there). -/
inductive PVal where
  | s (v : String)
  | b (v : Bool)
  | sList (v : List String)
deriving DecidableEq, Repr

structure ConstraintMerge where
  slot : String
  strategy : MergeStrategy
  tie_breakers : List String
deriving DecidableEq, Repr

/-- Impact constraint record (the extractor builds these as dicts). -/
structure Constraint where
  constraint_id : String
  kind : ConstraintKind
  topic : String
  target : ConstraintTarget
  rule : String
  params : List (String × PVal)
  weight : ℚ
  priority : Int
  confidence : ℚ
  created_at : Nat
  expires_at : Option Nat := none
  source_refs : List String := []
  provenance_transform_id : String := ""
  provenance_policy_version : Option String := none
  merge : ConstraintMerge
deriving DecidableEq, Repr

structure SeedActivation where
  min_confidence : ℚ := 11/20
  cooldown_seconds : Nat := 3600
deriving DecidableEq, Repr

structure SeedPayload where
  cues : List String := []
  activation : SeedActivation := {}
deriving DecidableEq, Repr

/-- Canonical MemoryObject (core_types.MemoryObject), restricted to the fields
the embedded operations read or copy. -/
structure MemoryObject where
  id : String
  tenant_id : String
  scope : Scope
  type : MemoryType
  truth_mode : TruthMode
  state : MemoryState := .active
  sensitivity : Sensitivity := { level := .low, categories := [], handling := .normal }
  ownership : Ownership
  temporal : Temporal
  content : Content
  affect : Affect := {}
  impact_payload : Option (List Constraint) := none
  seed_payload : Option SeedPayload := none
  strength : Strength := {}
  provenance : Provenance
  reconsolidation_policy : ReconsolidationPolicy := .never_edit_source
deriving DecidableEq, Repr

structure DerivedObjectLink where
  parent_id : String
  child_id : String
  relationship : String
  rule : String
  strength_transfer : ℚ
  created_at : Nat
deriving DecidableEq, Repr

/-! ## Policy engine (src/app/memoryscope/policy_engine.py) -/

/-- A value in the evaluation context dictionary built by
`evaluate_ingest` / `evaluate_query` (nested dicts of strings and
string lists). -/
inductive CtxVal where
  | str (v : String)
  | strList (v : List String)
  | dict (entries : List (String × CtxVal))
deriving Repr

/-- A rule condition value: either a scalar (equality match) or a list
(membership match). -/
inductive CondVal where
  | scalar (v : String)
  | list (v : List String)
deriving DecidableEq, Repr

/-- The discretionary actions a rule's `then` map may carry
(a key absent from the dict is `none`). -/
structure ThenActs where
  set_state : Option MemoryState := none
  allow_read : Option Bool := none
  include_in_prompt : Option Bool := none
  derive_impacts : Option Bool := none
  derive_seeds : Option Bool := none
deriving DecidableEq, Repr

structure PolicyRule where
  id : String
  when_conds : List (String × CondVal)
  then_acts : ThenActs
deriving DecidableEq, Repr

inductive AllowDeny where
  | allow | deny
deriving DecidableEq, Repr

structure PolicyDefaults where
  write : AllowDeny := .allow
  read : AllowDeny := .deny
  include_in_prompt : AllowDeny := .deny
  tool_execution : AllowDeny := .allow
  reinforcement : AllowDeny := .allow
  derive_impacts : AllowDeny := .allow
  derive_seeds : AllowDeny := .allow
deriving DecidableEq, Repr

structure Policy where
  policy_version : String
  defaults : PolicyDefaults
  rules : List PolicyRule
deriving DecidableEq, Repr

/-- `PolicyEngine._default_policy` (policy_engine.py lines 72–145). -/
def default_policy : Policy :=
  { policy_version := "pol_2026_01_06_01"
    defaults := {}
    rules :=
      [ { id := "seal_sensitive_events"
          when_conds :=
            [ ("memory.type", .scalar "event"),
              ("memory.sensitivity.categories",
                .list ["trauma", "shame", "moral_injury"]) ]
          then_acts :=
            { set_state := some .sealed, allow_read := some false,
              include_in_prompt := some false,
              derive_impacts := some true, derive_seeds := some true } },
        { id := "allow_impacts_for_chat"
          when_conds :=
            [ ("memory.type", .scalar "impact"),
              ("request.purpose", .scalar "chat_response"),
              ("memory.sensitivity.level", .list ["low", "medium"]) ]
          then_acts :=
            { allow_read := some true, include_in_prompt := some true } },
        { id := "deny_disputed_facts_in_chat"
          when_conds :=
            [ ("memory.truth_mode", .scalar "factual_claim"),
              ("memory.ownership.dispute_state", .list ["disputed", "contested"]),
              ("request.purpose", .scalar "chat_response") ]
          then_acts := { allow_read := some false } },
        { id := "deny_nonfactual_for_tools"
          when_conds :=
            [ ("memory.truth_mode",
                .list ["counterfactual", "imagined", "socially_sourced"]),
              ("request.purpose", .scalar "task_execution") ]
          then_acts := { allow_read := some false } } ] }

/-- Dictionary lookup inside a `CtxVal.dict`. -/
def ctx_get : List (String × CtxVal) → String → Option CtxVal
  | [], _ => none
  | (k, v) :: rest, key => if k == key then some v else ctx_get rest key

/-- Resolve a dotted path against the context, one part at a time
(`_match_condition`, resolution phase): a non-dict intermediate value or a
missing key yields `none` (Python returns False in both cases). -/
def resolve_path : List String → CtxVal → Option CtxVal
  | [], v => some v
  | part :: rest, .dict entries =>
      match ctx_get entries part with
      | some v => resolve_path rest v
      | none => none
  | _ :: _, _ => none

/-- Value-matching phase of `_match_condition` (policy_engine.py lines
202–206): a list condition is Python's `actual_value in condition_value`,
which is true only when the actual value is a *string* equal to one of the
list's elements — an actual value that is itself a list (such as
`memory.sensitivity.categories`) never equals any string element. -/
def match_value : CtxVal → CondVal → Bool
  | .str s, .list l => l.contains s
  | .strList _, .list _ => false
  | .dict _, .list _ => false
  | .str s, .scalar v => s == v
  | .strList _, .scalar _ => false
  | .dict _, .scalar _ => false

/-- Python `key.split(".")` (empty pieces kept). -/
def split_char_aux (c : Char) : List Char → List Char → List (List Char)
  | [], acc => [acc.reverse]
  | x :: rest, acc =>
      if x == c then acc.reverse :: split_char_aux c rest []
      else split_char_aux c rest (x :: acc)

def split_dot (s : String) : List String :=
  (split_char_aux '.' s.data []).map String.mk

/-- `PolicyEngine._match_condition` (policy_engine.py lines 183–206). -/
def match_condition (condition_key : String) (condition_value : CondVal)
    (context : CtxVal) : Bool :=
  match resolve_path (split_dot condition_key) context with
  | none => false
  | some actual => match_value actual condition_value

/-- `PolicyEngine._match_rule` (policy_engine.py lines 208–214). -/
def match_rule (rule : PolicyRule) (context : CtxVal) : Bool :=
  rule.when_conds.all fun (k, v) => match_condition k v context

/-- The `context["memory"]` dict built by `evaluate_ingest`
(policy_engine.py lines 236–248). -/
def ingest_context (m : MemoryObject) : CtxVal :=
  .dict
    [ ("memory", .dict
        [ ("type", .str m.type.value),
          ("truth_mode", .str m.truth_mode.value),
          ("state", .str m.state.value),
          ("sensitivity", .dict
            [ ("level", .str m.sensitivity.level.value),
              ("categories", .strList m.sensitivity.categories),
              ("handling", .str m.sensitivity.handling.value) ]),
          ("ownership", .dict
            [ ("dispute_state", .str m.ownership.dispute_state.value) ]) ]) ]

/-- The context built by `evaluate_query` (policy_engine.py lines 313–327):
like the ingest context but without `handling` and with a `request.purpose`
entry. -/
def query_context (m : MemoryObject) (purpose : PurposeType) : CtxVal :=
  .dict
    [ ("memory", .dict
        [ ("type", .str m.type.value),
          ("truth_mode", .str m.truth_mode.value),
          ("state", .str m.state.value),
          ("sensitivity", .dict
            [ ("level", .str m.sensitivity.level.value),
              ("categories", .strList m.sensitivity.categories) ]),
          ("ownership", .dict
            [ ("dispute_state", .str m.ownership.dispute_state.value) ]) ]),
      ("request", .dict [ ("purpose", .str purpose.value) ]) ]

/-- Result of `evaluate_ingest`, with the trace fields inlined
(`decision` dict plus `PolicyTrace`). -/
structure IngestDecision where
  allowed : Bool
  state : MemoryState
  derive_impacts : Bool
  derive_seeds : Bool
  policy_version : String
  matched_rules : List String
  denied_reasons : List String
deriving DecidableEq, Repr

/-- One step of the `evaluate_ingest` rule walk (the body of the
`for rule in self.compiled_rules` loop, policy_engine.py lines 262–282). -/
def ingest_apply_rule (d : IngestDecision) (r : PolicyRule) : IngestDecision :=
  let d := { d with matched_rules := d.matched_rules ++ [r.id] }
  let d := match r.then_acts.set_state with
    | some st => { d with state := st }
    | none => d
  let d := match r.then_acts.derive_impacts with
    | some b => { d with derive_impacts := b == true }
    | none => d
  let d := match r.then_acts.derive_seeds with
    | some b => { d with derive_seeds := b == true }
    | none => d
  match r.then_acts.allow_read with
  | some false =>
      { d with denied_reasons := d.denied_reasons ++ ["Rule " ++ r.id ++ ": read denied"] }
  | _ => d

/-- `PolicyEngine.evaluate_ingest` (policy_engine.py lines 216–292). -/
def evaluate_ingest (pol : Policy) (m : MemoryObject) : IngestDecision :=
  let context := ingest_context m
  let init : IngestDecision :=
    { allowed := pol.defaults.write == .allow
      state := m.state
      derive_impacts := pol.defaults.derive_impacts == .allow
      derive_seeds := pol.defaults.derive_seeds == .allow
      policy_version := pol.policy_version
      matched_rules := []
      denied_reasons := [] }
  pol.rules.foldl
    (fun d r => if match_rule r context then ingest_apply_rule d r else d) init

/-- Result of `evaluate_query`, with the trace fields inlined. -/
structure QueryDecision where
  allowed : Bool
  include_in_prompt : Bool
  policy_version : String
  matched_rules : List String
  denied_reasons : List String
deriving DecidableEq, Repr

/-- `PolicyEngine.evaluate_query` (policy_engine.py lines 294–372):
walk the rules top-to-bottom collecting every matching rule's `allow_read`
and `include_in_prompt` opinions, then let the most restrictive win
(`all` must be true); with no opinions the defaults stand. -/
def evaluate_query (pol : Policy) (m : MemoryObject) (purpose : PurposeType) :
    QueryDecision :=
  let context := query_context m purpose
  let matched := pol.rules.filter (fun r => match_rule r context)
  let allow_decisions := matched.filterMap (fun r => r.then_acts.allow_read)
  let include_decisions := matched.filterMap (fun r => r.then_acts.include_in_prompt)
  let allowed :=
    if allow_decisions.isEmpty then pol.defaults.read == .allow
    else allow_decisions.all id
  let include_in_prompt :=
    if include_decisions.isEmpty then pol.defaults.include_in_prompt == .allow
    else include_decisions.all id
  { allowed := allowed
    include_in_prompt := include_in_prompt
    policy_version := pol.policy_version
    matched_rules := matched.map (·.id)
    denied_reasons :=
      if ¬allow_decisions.isEmpty ∧ allow_decisions.all id = false
      then ["Rule denied read access"] else [] }

/-! ## String helpers (Python `str.lower`, `in`, `.split()`) -/

/-- Python `s.lower()` on a character list (ASCII folding; the embedded
keyword checks only involve ASCII). -/
def lower_chars (l : List Char) : List Char := l.map Char.toLower

/-- Does `hay` start with `needle`? -/
def starts_chars : List Char → List Char → Bool
  | _, [] => true
  | [], _ :: _ => false
  | h :: hs, n :: ns => h == n && starts_chars hs ns

/-- Python substring test `needle in hay`. -/
def contains_chars (hay needle : List Char) : Bool :=
  match hay with
  | [] => needle.isEmpty
  | _ :: rest => starts_chars hay needle || contains_chars rest needle

/-- Python `s.split()` (split on whitespace runs, dropping empties). -/
def split_ws_aux : List Char → List Char → List (List Char)
  | [], acc => if acc.isEmpty then [] else [acc.reverse]
  | c :: rest, acc =>
      if c.isWhitespace then
        if acc.isEmpty then split_ws_aux rest []
        else acc.reverse :: split_ws_aux rest []
      else split_ws_aux rest (c :: acc)

def split_ws (l : List Char) : List (List Char) := split_ws_aux l []

/-- Python `s.strip()`. -/
def strip_chars (l : List Char) : List Char :=
  ((l.dropWhile Char.isWhitespace).reverse.dropWhile Char.isWhitespace).reverse

def str_lower (s : String) : String := ⟨lower_chars s.data⟩

/-- Python `needle in hay` on `String`s. -/
def str_contains (hay needle : String) : Bool := contains_chars hay.data needle.data

/-! ## Storage queries (src/app/memoryscope/storage.py) -/

/-- The `filters` dictionary accepted by `query_memories`
(storage.py lines 83–139); an absent key is `none` / `false`. -/
structure QueryFilters where
  state : Option (List String) := none
  type_filter : Option (List String) := none
  truth_mode : Option (List String) := none
  exclude_sealed : Bool := false
  exclude_disputed : Bool := false
  min_strength : Option ℚ := none
deriving DecidableEq, Repr

/-- One row passes the SQL `WHERE` clause of `query_memories`. -/
def row_passes (tenant_id : String) (scope : Scope) (filters : QueryFilters)
    (m : MemoryObject) : Bool :=
  m.tenant_id == tenant_id
  && m.scope.scope_type.value == scope.scope_type.value
  && m.scope.scope_id == scope.scope_id
  && (match filters.state with
      | some states => states.contains m.state.value
      | none => true)
  && (match filters.type_filter with
      | some types => types.contains m.type.value
      | none => true)
  && (match filters.truth_mode with
      | some tms => tms.contains m.truth_mode.value
      | none => true)
  && (!filters.exclude_sealed || m.state.value != "sealed")
  && (!filters.exclude_disputed
      || !(["disputed", "contested"].contains m.ownership.dispute_state.value))
  && (match filters.min_strength with
      | some q => decide (q ≤ m.strength.current)
      | none => true)

/-- The ILIKE `%term%` text-search condition of `query_memories`
(storage.py lines 141–154): keep only rows whose `content.text` contains
one of the search terms (terms are the lowercased whitespace-split words of
`query_text` longer than 2 characters; with no such term the filter is not
applied). `content.text = NULL` never matches. -/
def text_search_passes (query_text : Option String) (m : MemoryObject) : Bool :=
  match query_text with
  | none => true
  | some qt =>
      let terms := (split_ws (lower_chars qt.data)).filter (fun t => t.length > 2)
      if terms.isEmpty then true
      else match m.content.text with
        | none => false
        | some txt => terms.any (fun t => contains_chars (lower_chars txt.data) t)

/-- `ORDER BY occurred_at_observed DESC` modelled as a stable sort
(rows with equal timestamps keep their store order, which SQL leaves
unspecified; the claims' proofs either fix distinct timestamps or do not
depend on this order). -/
def order_desc (rows : List MemoryObject) : List MemoryObject :=
  rows.insertionSort
    (fun a b => b.temporal.occurred_at_observed ≤ a.temporal.occurred_at_observed)

/-- `query_memories` (storage.py lines 83–167) over an in-memory store. -/
def query_memories (store : List MemoryObject) (tenant_id : String)
    (scope : Scope) (filters : QueryFilters) (limit : Nat)
    (query_text : Option String) : List MemoryObject :=
  ((order_desc
      ((store.filter (row_passes tenant_id scope filters)).filter
        (text_search_passes query_text)))).take limit

/-- `get_memory` (storage.py lines 68–80). -/
def get_memory (store : List MemoryObject) (memory_id tenant_id : String) :
    Option MemoryObject :=
  store.find? (fun m => m.id == memory_id && m.tenant_id == tenant_id)

/-! ## Retrieval engine (src/app/memoryscope/retrieval.py) -/

structure SeedOut where
  id : String
  cues : List String
deriving DecidableEq, Repr

structure RetrievalResult where
  memory_ids : List String
  impacts : List Constraint
  seeds : List SeedOut
  events : List String
  denied_ids : List String
deriving DecidableEq, Repr

/-- Accumulator of the per-row policy loop of `retrieve_for_purpose`
(retrieval.py lines 82–115), with the allowed rows kept for the
task-execution post-filter. -/
structure ProcessAcc where
  allowed : List MemoryObject
  denied_ids : List String
  impacts : List Constraint
  seeds : List SeedOut
  events : List String
deriving Repr

/-- The per-row policy loop of `retrieve_for_purpose`: evaluate the query
policy on each row in order; denied rows contribute their id to
`denied_ids`, allowed rows are categorized by type (impacts surface their
constraints, seeds surface `{id, cues}`, non-sealed events surface their
id). -/
def process_rows (pol : Policy) (purpose : PurposeType) :
    List MemoryObject → ProcessAcc
  | [] => ⟨[], [], [], [], []⟩
  | m :: rest =>
      let r := process_rows pol purpose rest
      if (evaluate_query pol m purpose).allowed then
        match m.type with
        | .impact =>
            { r with allowed := m :: r.allowed
                     impacts := m.impact_payload.getD [] ++ r.impacts }
        | .seed =>
            { r with allowed := m :: r.allowed
                     seeds := { id := m.id,
                                cues := (m.seed_payload.map (·.cues)).getD [] } :: r.seeds }
        | .event =>
            if m.state = .sealed then { r with allowed := m :: r.allowed }
            else { r with allowed := m :: r.allowed, events := m.id :: r.events }
      else { r with denied_ids := m.id :: r.denied_ids }

/-- The task-execution post-filter (retrieval.py lines 117–125): remove
nonfactual truth modes from the allowed rows, recording their ids as
denied. -/
def nonfactual_truth_modes : List TruthMode :=
  [.counterfactual, .imagined, .socially_sourced]

def task_filter : List MemoryObject → List MemoryObject × List String
  | [] => ([], [])
  | m :: rest =>
      let (ta, dn) := task_filter rest
      if m.truth_mode ∈ nonfactual_truth_modes
      then (ta, m.id :: dn)
      else (m :: ta, dn)

/-- The purpose-dependent base filters of `retrieve_for_purpose`
(retrieval.py lines 58–70). -/
def purpose_filters (purpose : PurposeType) : QueryFilters :=
  match purpose with
  | .chat_response => { exclude_sealed := true, exclude_disputed := true }
  | .task_execution => { exclude_sealed := true, exclude_disputed := true }
  | _ => {}

/-- `RetrievalEngine.retrieve_for_purpose` (retrieval.py lines 37–133). -/
def retrieve_for_purpose (pol : Policy) (store : List MemoryObject)
    (tenant_id : String) (scope : Scope) (purpose : PurposeType)
    (query_text : Option String := none) (limit : Nat := 50) :
    RetrievalResult :=
  let fetched := query_memories store tenant_id scope (purpose_filters purpose)
      (limit * 2) query_text
  let acc := process_rows pol purpose fetched
  let (task_allowed, extra_denied) :=
    if purpose = .task_execution then task_filter acc.allowed
    else (acc.allowed, [])
  { memory_ids := task_allowed.map (·.id)
    impacts := acc.impacts
    seeds := acc.seeds
    events := acc.events
    denied_ids := acc.denied_ids ++ extra_denied }

/-! ## Reconstruction engine (src/app/memoryscope/reconstruction.py) -/

def pval_str : PVal → String
  | .s v => v
  | .b true => "True"
  | .b false => "False"
  | .sList _ => ""

/-- Python `dict.get` on a constraint's `params`. -/
def plookup : List (String × PVal) → String → Option PVal
  | [], _ => none
  | (k, v) :: rest, key => if k == key then some v else plookup rest key

structure ReconResult where
  reconstructed_context : String
  confidence : ℚ
  sources_impacts : List String
  sources_seeds : List String
  sources_events : List String
deriving DecidableEq, Repr

/-- Item collection for one constraint kind: look up the given param keys on
each constraint of that kind, in order (reconstruction.py lines 98–168;
for `avoid` both `content_class` and the `phrase_ids` list contribute). -/
def kind_items (constraints : List Constraint) (kind : ConstraintKind)
    (key : String) : List String :=
  (constraints.filter (fun c => c.kind = kind)).foldr
    (fun c acc =>
      (match plookup c.params key with
       | some (.sList l) => l
       | some v => [pval_str v]
       | none => []) ++ acc) []

def avoid_items (constraints : List Constraint) : List String :=
  (constraints.filter (fun c => c.kind = .avoid)).foldr
    (fun c acc =>
      (match plookup c.params "content_class" with
       | some v => [pval_str v]
       | none => []) ++
      (match plookup c.params "phrase_ids" with
       | some (.sList l) => l
       | some _ => []
       | none => []) ++ acc) []

/-- `prefer` items are `attribute=value` pairs, emitted only when both
params are present (reconstruction.py lines 110–118). -/
def prefer_items (constraints : List Constraint) : List String :=
  (constraints.filter (fun c => c.kind = .prefer)).foldr
    (fun c acc =>
      (match plookup c.params "attribute", plookup c.params "value" with
       | some a, some v => [pval_str a ++ "=" ++ pval_str v]
       | _, _ => []) ++ acc) []

def join_comma (items : List String) : String := String.intercalate ", " items

/-- `ReconstructionEngine.reconstruct_context` (reconstruction.py lines
38–232), factored through the retrieval result — the source reads nothing
but the `result` dict returned by `retrieve_for_purpose`. -/
def reconstruct_from_result (result : RetrievalResult) (include_events : Bool) :
    ReconResult :=
  let constraints := result.impacts
  let part0 :=
    (if constraints ≠ [] ∧ avoid_items constraints ≠ []
     then ["Avoid: " ++ join_comma (avoid_items constraints)] else []) ++
    (if constraints ≠ [] ∧ prefer_items constraints ≠ []
     then ["Prefer: " ++ join_comma (prefer_items constraints)] else []) ++
    (if constraints ≠ [] ∧ kind_items constraints .require "behavior" ≠ []
     then ["Require: " ++ join_comma (kind_items constraints .require "behavior")] else []) ++
    (if constraints ≠ [] ∧ kind_items constraints .tone "tone_profile" ≠ []
     then ["Tone: " ++ join_comma (kind_items constraints .tone "tone_profile")] else []) ++
    (if constraints ≠ [] ∧ kind_items constraints .style "format" ≠ []
     then ["Style: " ++ join_comma (kind_items constraints .style "format")] else []) ++
    (if constraints ≠ [] ∧ kind_items constraints .boundary "boundary_type" ≠ []
     then ["Boundaries: " ++ join_comma (kind_items constraints .boundary "boundary_type")] else []) ++
    (if constraints ≠ [] ∧ kind_items constraints .safety "mode" ≠ []
     then ["Safety: " ++ join_comma (kind_items constraints .safety "mode")] else [])
  let impact_ids := constraints.foldr (fun c acc => c.source_refs ++ acc) ([] : List String)
  let seed_cues := result.seeds.foldr (fun s acc => s.cues ++ acc) ([] : List String)
  let part1 :=
    if result.seeds ≠ [] ∧ seed_cues ≠ []
    then ["Associative cues: " ++ join_comma (seed_cues.take 10)] else []
  let event_ids :=
    if include_events
    then (result.events.filter (fun mid => ¬ result.denied_ids.contains mid)).take 5
    else []
  let part2 :=
    if include_events then
      if event_ids ≠ []
      then ["Referenced events: " ++ toString event_ids.length ++ " (content not included)"]
      else []
    else ["Events: excluded (sealed memories not reconstructed)"]
  let context_parts := part0 ++ part1 ++ part2
  let reconstructed_context :=
    if context_parts ≠ [] then String.intercalate "\n" context_parts
    else "No relevant context found."
  let confidence0 : ℚ :=
    (if impact_ids ≠ [] then 2/5 else 0) + (if result.seeds ≠ [] then 1/5 else 0)
      + (if include_events ∧ event_ids ≠ [] then 1/10 else 0)
  let confidence1 := min 1 confidence0
  let confidence := if result.impacts ≠ [] then max confidence1 (1/2) else confidence1
  { reconstructed_context := reconstructed_context
    confidence := confidence
    -- Python `list(set(impact_ids))` has unspecified order; modelled as a
    -- first-occurrence dedup.
    sources_impacts := impact_ids.eraseDups
    sources_seeds := result.seeds.map (·.id)
    sources_events := event_ids }

/-- The full reconstruction entry point: retrieval (limit 100) followed by
`reconstruct_from_result`. -/
def reconstruct_context (pol : Policy) (store : List MemoryObject)
    (tenant_id : String) (scope : Scope) (purpose : PurposeType)
    (query_text : Option String) (include_events : Bool) : ReconResult :=
  reconstruct_from_result
    (retrieve_for_purpose pol store tenant_id scope purpose query_text 100)
    include_events

/-! ## Observability engine (src/app/memoryscope/observability.py) -/

structure AccessLogRow where
  log_id : String
  time : Nat
  tenant_id : String
  scope : Scope
  purpose : PurposeType
  query_text : Option String := none
  query_op : String
  decision_allowed : Bool
  decision_returned_ids : List String := []
  decision_denied_ids : List String := []
  decision_explanation : String := ""
deriving DecidableEq, Repr

/-- One `constraints_applied` entry emitted by `explain_decision`
(observability.py lines 92–97): pure projections of a stored constraint. -/
structure AppliedConstraint where
  constraint_id : String
  kind : ConstraintKind
  params : List (String × PVal)
  source_memory : String
deriving DecidableEq, Repr

/-- The access-log summary embedded into `explanation["access_log"]`
(observability.py lines 65–71). -/
structure ExplainLogInfo where
  log_id : String
  time : Nat
  purpose : PurposeType
  decision_allowed : Bool
  decision_explanation : String
deriving DecidableEq, Repr

structure ExplainResult where
  explanation_log : Option ExplainLogInfo
  memory_ids_used : List String
  constraints_applied : List AppliedConstraint
  -- `denials` entries are `{memory_id, reason := "Policy denied"}`;
  -- only the ids vary, so the list of ids is kept.
  denials : List String
deriving DecidableEq, Repr

/-- The `for memory_id in memory_ids` loop of `explain_decision`
(observability.py lines 83–97). -/
def explain_collect (store : List MemoryObject) (tenant_id : String) :
    List String → List String × List AppliedConstraint
  | [] => ([], [])
  | mid :: rest =>
      let (ids, cs) := explain_collect store tenant_id rest
      match get_memory store mid tenant_id with
      | none => (ids, cs)
      | some m =>
          (mid :: ids,
           (if m.type = .impact then
              (m.impact_payload.getD []).map
                (fun c => { constraint_id := c.constraint_id, kind := c.kind,
                            params := c.params, source_memory := mid })
            else []) ++ cs)

/-- `ObservabilityEngine.explain_decision` (observability.py lines 26–107). -/
def explain_decision (store : List MemoryObject) (logs : List AccessLogRow)
    (tenant_id : String) (access_log_id : Option String)
    (memory_ids : Option (List String)) : ExplainResult :=
  let found : Option AccessLogRow :=
    match access_log_id with
    | none => none
    | some lid => logs.find? (fun l => l.log_id == lid)
  let log_ids_used := match found with
    | some l => l.decision_returned_ids
    | none => []
  let denials := match found with
    | some l => l.decision_denied_ids
    | none => []
  let (mem_ids_used, constraints_applied) :=
    explain_collect store tenant_id (memory_ids.getD [])
  { explanation_log :=
      found.map (fun l =>
        { log_id := l.log_id, time := l.time, purpose := l.purpose,
          decision_allowed := l.decision_allowed,
          decision_explanation := l.decision_explanation })
    -- Python `list(set(...))` has unspecified order; modelled as a
    -- first-occurrence dedup.
    memory_ids_used := (log_ids_used ++ mem_ids_used).eraseDups
    constraints_applied := constraints_applied
    denials := denials }

/-- Override context accepted by `replay_request` (a partial update of the
replayed request's scope / purpose / query_text). -/
structure ReplayOverride where
  scope : Option Scope := none
  purpose : Option PurposeType := none
  query_text : Option (Option String) := none
deriving DecidableEq, Repr

inductive ReplayResult where
  | logNotFound
  | ok (memory_ids : List String) (impacts_count seeds_count events_count : Nat)
      (denied_ids : List String) (policy_version : String)
deriving DecidableEq, Repr

/-- `ObservabilityEngine.replay_request` (observability.py lines 109–185):
re-run the logged retrieval under a freshly constructed default policy
engine and emit only ids and counts. -/
def replay_request (store : List MemoryObject) (logs : List AccessLogRow)
    (tenant_id : String) (access_log_id : String)
    (override : ReplayOverride := {}) : ReplayResult :=
  match logs.find? (fun l => l.log_id == access_log_id) with
  | none => .logNotFound
  | some log =>
      let scope := override.scope.getD log.scope
      let purpose := override.purpose.getD log.purpose
      let query_text := override.query_text.getD log.query_text
      let result := retrieve_for_purpose default_policy store tenant_id scope
        purpose query_text 50
      .ok result.memory_ids result.impacts.length result.seeds.length
        result.events.length result.denied_ids default_policy.policy_version

/-! ## Impact extraction (src/app/memoryscope/impact_extraction.py) -/

def transform_version : String := "tx_impact_extract_v2.1.0"

/-- `ImpactExtractor._create_safety_constraint` (impact_extraction.py lines
154–186). `datetime.utcnow()` and `generate_constraint_id()` are supplied as
the `now` / `cid` oracle parameters. The source picks
`MergeStrategy.MOST_RESTRICTIVE_WINS` only if that member exists, which it
does not, so the `intersection` fallback is always taken. -/
def create_safety_constraint (event : MemoryObject) (cid : String) (now : Nat)
    (mode : String) (consent_required : Bool) : Constraint :=
  { constraint_id := cid
    kind := .safety
    topic := "safety"
    target := .response
    rule := "safety_extraction_v2"
    params := [("mode", .s mode), ("consent_required", .b consent_required)]
    weight := 1
    priority := 10
    confidence := 4/5
    created_at := now
    expires_at := none
    source_refs := [event.id]
    provenance_transform_id := transform_version
    provenance_policy_version := event.provenance.policy_version
    merge := { slot := "safety", strategy := .intersection,
               tie_breakers := ["priority", "created_at"] } }

/-- `ImpactExtractor._create_avoid_constraint` (lines 188–218). -/
def create_avoid_constraint (event : MemoryObject) (cid : String) (now : Nat)
    (content_class : String) : Constraint :=
  { constraint_id := cid
    kind := .avoid
    topic := "content"
    target := .response
    rule := "avoid_extraction_v2"
    params := [("content_class", .s content_class)]
    weight := 9/10
    priority := 8
    confidence := 3/4
    created_at := now
    expires_at := none
    source_refs := [event.id]
    provenance_transform_id := transform_version
    provenance_policy_version := event.provenance.policy_version
    merge := { slot := "avoid", strategy := .intersection,
               tie_breakers := ["priority", "created_at"] } }

/-- `ImpactExtractor._create_tone_constraint` (lines 220–250). -/
def create_tone_constraint (event : MemoryObject) (cid : String) (now : Nat)
    (tone_profile : String) : Constraint :=
  { constraint_id := cid
    kind := .tone
    topic := "tone"
    target := .response
    rule := "tone_extraction_v2"
    params := [("tone_profile", .s tone_profile)]
    weight := 7/10
    priority := 5
    confidence := 7/10
    created_at := now
    expires_at := none
    source_refs := [event.id]
    provenance_transform_id := transform_version
    provenance_policy_version := event.provenance.policy_version
    merge := { slot := "tone", strategy := .latest_wins,
               tie_breakers := ["priority", "created_at"] } }

/-- `ImpactExtractor._create_style_constraint` (lines 252–282). -/
def create_style_constraint (event : MemoryObject) (cid : String) (now : Nat)
    (format : String) : Constraint :=
  { constraint_id := cid
    kind := .style
    topic := "style"
    target := .response
    rule := "style_extraction_v2"
    params := [("format", .s format)]
    weight := 3/5
    priority := 4
    confidence := 13/20
    created_at := now
    expires_at := none
    source_refs := [event.id]
    provenance_transform_id := transform_version
    provenance_policy_version := event.provenance.policy_version
    merge := { slot := "style", strategy := .union,
               tie_breakers := ["priority", "created_at"] } }

/-- `ImpactExtractor._detect_tone_preference` (lines 284–303): deterministic
keyword matching over the lowercased text. -/
def detect_tone_preference (text : String) : Option String :=
  let tl := lower_chars text.data
  if ["gentle", "soft", "kind", "caring"].any
      (fun w => contains_chars tl w.data) then some "reassuring"
  else if ["direct", "straightforward", "clear"].any
      (fun w => contains_chars tl w.data) then some "matter_of_fact"
  else if ["supportive", "helpful", "encouraging"].any
      (fun w => contains_chars tl w.data) then some "supportive"
  else if ["firm", "strict", "serious"].any
      (fun w => contains_chars tl w.data) then some "firm"
  else none

/-- `re.search(r'[•\-\*]\s', text)`: a bullet marker immediately followed by
a whitespace character. -/
def has_bullet_marker : List Char → Bool
  | c :: c2 :: rest =>
      ((c == '•' || c == '-' || c == '*') && c2.isWhitespace)
        || has_bullet_marker (c2 :: rest)
  | _ => false

/-- `re.search(r'\d+\.\s', text)`: a match exists iff some digit is
immediately followed by a dot and then whitespace. -/
def has_numbered_marker : List Char → Bool
  | c :: c2 :: c3 :: rest =>
      (c.isDigit && c2 == '.' && c3.isWhitespace)
        || has_numbered_marker (c2 :: c3 :: rest)
  | _ => false

/-- `len(text.split('\n\n'))`: one plus the number of non-overlapping,
leftmost-first occurrences of a blank-line separator. -/
def count_blank_splits : List Char → Nat
  | '\n' :: '\n' :: rest => 1 + count_blank_splits rest
  | _ :: rest => count_blank_splits rest
  | [] => 1

/-- `ImpactExtractor._detect_style_preference` (lines 305–319). -/
def detect_style_preference (text : String) : Option String :=
  let tl := lower_chars text.data
  if has_bullet_marker text.data || contains_chars tl "bullet".data then
    some "bullets"
  else if has_numbered_marker text.data || contains_chars tl "numbered".data then
    some "numbered_steps"
  else if count_blank_splits text.data > 3
      || contains_chars tl "paragraph".data then
    some "short_paragraphs"
  else none

/-- The "Create impact memory" block of `ImpactExtractor.extract_impacts`
(impact_extraction.py lines 122–150): the new impact inherits the event's
sensitivity, ownership, temporal, content, affect and strength fields
verbatim. -/
def build_impact_memory (event : MemoryObject) (constraints : List Constraint)
    (impact_id : String) (now : Nat) : MemoryObject :=
  { id := impact_id
    tenant_id := event.tenant_id
    scope := event.scope
    type := .impact
    truth_mode := .procedural
    state := .active
    sensitivity := event.sensitivity
    ownership := event.ownership
    temporal := event.temporal
    content := event.content
    affect := event.affect
    impact_payload := some constraints
    seed_payload := none
    strength := event.strength
    provenance :=
      { source := .system
        derived_from := [event.id]
        transform_chain :=
          [{ transform_id := transform_version, version := "2.1.0",
             run_id := "run_" ++ toString now }]
        policy_version := event.provenance.policy_version
        confidence := 7/10 }
    reconsolidation_policy := .append_only }

/-- The content-driven tone/style extraction of `extract_impacts`
(impact_extraction.py lines 98–116): `content.text` (or `""` when absent)
is scanned for tone keywords and style markers. -/
def content_constraints (event : MemoryObject) (cid : Nat → String)
    (now : Nat) : List Constraint :=
  let content_text := event.content.text.getD ""
  (match detect_tone_preference content_text with
   | some tone => [create_tone_constraint event (cid 3) now tone]
   | none => []) ++
  (match detect_style_preference content_text with
   | some style => [create_style_constraint event (cid 4) now style]
   | none => [])

/-- `ImpactExtractor.extract_impacts` (impact_extraction.py lines 48–152).
`cid : Nat → String` supplies the generated constraint ids in order of
creation, `impact_id` the generated impact memory id, and `now` the
timestamp; the claims do not depend on these oracle values. -/
def extract_impacts (event : MemoryObject) (policy_allows : Bool)
    (cid : Nat → String) (impact_id : String) (now : Nat) :
    Option MemoryObject :=
  if ¬ policy_allows then none
  else if event.state = .sealed then none
  else
    -- sensitivity-driven constraints (lines 80–96)
    let cs0 : List Constraint :=
      if event.sensitivity.level ∈ [SensitivityLevel.high, .critical] then
        (if event.sensitivity.categories.contains "trauma"
         then [create_safety_constraint event (cid 0) now
                "supportive_reframe_only" true] else []) ++
        (if event.sensitivity.categories.contains "shame"
            || event.sensitivity.categories.contains "moral_injury"
         then [create_avoid_constraint event (cid 1) now "judgment_language",
               create_tone_constraint event (cid 2) now "non_judgmental"]
         else [])
      else []
    -- content-driven tone/style constraints (lines 98–116)
    let cs1 : List Constraint :=
      if event.type = .event then content_constraints event cid now
      else []
    let constraints := cs0 ++ cs1
    if constraints = [] then none
    else some (build_impact_memory event constraints impact_id now)

/-! ## v2 ingest pipeline (src/app/memoryscope/v2_api.py `create_memory_v2`,
src/app/memoryscope/storage.py `store_memory` / `store_memory_link`,
src/app/memoryscope/impact_extraction.py `extract_and_store_impact`) -/

/-- The store rows touched by a v2 ingest: memory rows (with their
`app_id`) and link rows. -/
structure DBState where
  memories : List (MemoryObject × String)
  links : List DerivedObjectLink
deriving DecidableEq, Repr

/-- `store_memory` (storage.py lines 59–65): one `db.add` + `db.commit`,
i.e. the row is durable as soon as this returns. -/
def store_memory_db (db : DBState) (m : MemoryObject) (app_id : String) :
    DBState :=
  { db with memories := db.memories ++ [(m, app_id)] }

/-- `store_memory_link` (storage.py lines 264–281): its own
`db.add` + `db.commit`. -/
def store_link_db (db : DBState) (link : DerivedObjectLink) : DBState :=
  { db with links := db.links ++ [link] }

/-- The three separately-committed store writes a v2 ingest performs, used
as failure-injection points (a failure at a step models that store call
raising, after every earlier step has already committed).
`create_memory_v2` stores no audit row. -/
inductive IngestStep where
  | storeEventRow | storeImpactRow | storeLinkRow
deriving DecidableEq, Repr

/-- `create_memory_v2` (v2_api.py lines 138–216) composed with
`extract_and_store_impact` (impact_extraction.py lines 322–357): evaluate
the ingest policy, apply its state, commit the memory row, then — when the
policy allows derivation and the memory is an event — extract an impact,
commit it, and commit the `derived_impact` link (`strength_transfer 0.4`).
On a failure the exception propagates (HTTP 500) and the `Except.error`
carries the rows already committed. The returned `MemoryState` is the
`state` field of the create response. -/
def create_memory_v2 (pol : Policy) (db : DBState) (mem : MemoryObject)
    (app_id : String) (cid : Nat → String) (impact_id : String) (now : Nat)
    (fail_at : Option IngestStep) : Except DBState (DBState × MemoryState) :=
  let policy_result := evaluate_ingest pol mem
  let mem := { mem with state := policy_result.state }
  if fail_at = some .storeEventRow then .error db
  else
    let db := store_memory_db db mem app_id
    if policy_result.derive_impacts ∧ mem.type = .event then
      -- v2_api.py line 203 passes `policy_allows=True` unconditionally
      match extract_impacts mem true cid impact_id now with
      | none => .ok (db, mem.state)
      | some impact =>
          if fail_at = some .storeImpactRow then .error db
          else
            let db := store_memory_db db impact app_id
            if fail_at = some .storeLinkRow then .error db
            else
              let link : DerivedObjectLink :=
                { parent_id := mem.id, child_id := impact.id,
                  relationship := "derived_impact", rule := transform_version,
                  strength_transfer := 2/5, created_at := now }
              .ok (store_link_db db link, mem.state)
    else .ok (db, mem.state)

/-! ## v1 purpose normalization (src/app/utils.py `normalize_purpose`) -/

/-- `normalize_purpose` (utils.py lines 25–42): keyword mapping of a
free-text purpose to one of six purpose classes, defaulting to
`content_generation`. -/
def normalize_purpose (purpose : String) : String :=
  let pl := lower_chars purpose.data
  if ["content", "generate", "create", "write"].any
      (fun kw => contains_chars pl kw.data) then "content_generation"
  else if ["recommend", "suggest", "recommendation"].any
      (fun kw => contains_chars pl kw.data) then "recommendation"
  else if ["scheduling", "schedule", "calendar", "time"].any
      (fun kw => contains_chars pl kw.data) then "scheduling"
  else if ["ui", "render", "display", "show"].any
      (fun kw => contains_chars pl kw.data) then "ui_rendering"
  else if ["notify", "notification", "alert"].any
      (fun kw => contains_chars pl kw.data) then "notification_delivery"
  else if ["task", "execute", "action", "run"].any
      (fun kw => contains_chars pl kw.data) then "task_execution"
  else "content_generation"

/-! ## v1 read grants (src/app/main.py `continue_read_memory`,
`revoke_memory`): the store keys grants by `SHA-256(token)`
(`hash_revocation_token`), so the endpoints are embedded as functions of
the token hash. -/

structure ReadGrant where
  revocation_token_hash : String
  user_id : String
  app_id : String
  scope : String
  domain : Option String := none
  purpose : String
  purpose_class : String
  max_age_days : Option Nat := none
  created_at : Nat
  expires_at : Nat
  revoked_at : Option Nat := none
  revoke_reason : Option String := none
deriving DecidableEq, Repr

/-- The SQL filter of both endpoints: token hash and calling app match. -/
def grant_matches (token_hash app_id : String) (g : ReadGrant) : Bool :=
  g.revocation_token_hash == token_hash && g.app_id == app_id

inductive RevokeOutcome where
  | notFound                  -- 404 "Revocation token not found"
  | ok (revoked_at : Nat)     -- 200 {revoked: true, revoked_at}
deriving DecidableEq, Repr

/-- `revoke_memory` (main.py lines 575–617): look up the first grant row
matching (hash, app); absent or already revoked → 404 with the store
untouched; otherwise set `revoked_at = now`, `revoke_reason =
"user_requested"` and return `{revoked: true, revoked_at}`. -/
def revoke_memory (app_id token_hash : String) (now : Nat) :
    List ReadGrant → RevokeOutcome × List ReadGrant
  | [] => (.notFound, [])
  | g :: gs =>
      if grant_matches token_hash app_id g then
        match g.revoked_at with
        | some _ => (.notFound, g :: gs)
        | none =>
            (.ok now,
             { g with revoked_at := some now,
                      revoke_reason := some "user_requested" } :: gs)
      else
        let (o, gs') := revoke_memory app_id token_hash now gs
        (o, g :: gs')

/-! ## v1 JSON values (payloads of `memories.value_json`) -/

/-- JSON values as stored in v1 memory payloads. Python dicts are modelled
as insertion-ordered association lists (Python 3.7+ dict semantics). -/
inductive JVal where
  | s (v : String)
  | i (v : Int)
  | b (v : Bool)
  | null
  | arr (l : List JVal)
  | obj (l : List (String × JVal))

/-- Python `==` on JSON values. -/
def JVal.beq : JVal → JVal → Bool
  | .s x, .s y => x == y
  | .i x, .i y => x == y
  | .b x, .b y => x == y
  | .null, .null => true
  | .arr [], .arr [] => true
  | .arr (x :: xs), .arr (y :: ys) => JVal.beq x y && JVal.beq (.arr xs) (.arr ys)
  | .obj [], .obj [] => true
  | .obj ((k, v) :: xs), .obj ((k', v') :: ys) =>
      k == k' && JVal.beq v v' && JVal.beq (.obj xs) (.obj ys)
  | _, _ => false

instance : BEq JVal := ⟨JVal.beq⟩

mutual

/-- Python `repr` of a JSON value (strings are single-quoted; escaping
inside string payloads is not modelled). -/
def jrepr : JVal → String
  | .s v => "'" ++ v ++ "'"
  | .i v => toString v
  | .b true => "True"
  | .b false => "False"
  | .null => "None"
  | .arr l => "[" ++ jrepr_items l ++ "]"
  | .obj l => "\x7b" ++ jrepr_fields l ++ "\x7d"

def jrepr_items : List JVal → String
  | [] => ""
  | [x] => jrepr x
  | x :: y :: rest => jrepr x ++ ", " ++ jrepr_items (y :: rest)

def jrepr_fields : List (String × JVal) → String
  | [] => ""
  | [(k, v)] => "'" ++ k ++ "': " ++ jrepr v
  | (k, v) :: y :: rest => "'" ++ k ++ "': " ++ jrepr v ++ ", " ++ jrepr_fields (y :: rest)

end

/-- Python `str` of a JSON value (used for `str(l)` on likes/dislikes
entries; `str` equals `repr` except on strings). -/
def jstr : JVal → String
  | .s v => v
  | other => jrepr other

/-- Python `dict.get`. -/
def dget : List (String × JVal) → String → Option JVal
  | [], _ => none
  | (k, v) :: rest, key => if k == key then some v else dget rest key

/-- Python `d[k] = v`: replace in place on an existing key, else append. -/
def dset : List (String × JVal) → String → JVal → List (String × JVal)
  | [], k, v => [(k, v)]
  | (k', v') :: rest, k, v =>
      if k' == k then (k', v) :: rest else (k', v') :: dset rest k v

/-- Python `d.update(d2)`. -/
def dupdate (d upd : List (String × JVal)) : List (String × JVal) :=
  upd.foldl (fun acc kv => dset acc kv.1 kv.2) d

/-! ## Fuzzy matching (src/app/utils.py `_fuzzy_match_strings`,
`_dedupe_with_fuzzy`) built on `difflib.SequenceMatcher.ratio`.

`SequenceMatcher(None, a, b)` with no junk predicate: `ratio` is
`2·M / (len a + len b)` where `M` is the total size of the matching blocks
found by recursively locating longest matching runs. The autojunk
popularity heuristic (which only engages for `len b ≥ 200`) is not
modelled; no claim exercises strings that long, and with an empty junk set
the match-extension loops of `find_longest_match` provably never fire, so
they are omitted. -/

/-- `b2j`: for each position of `b`, the ascending list of indices at which
a character occurs. -/
def b2j_lookup (b : List Char) (c : Char) : List Nat :=
  (List.range b.length).filter (fun j => b.getD j ' ' == c)

/-- Association-list lookup for the `j2len` dict. -/
def jl_get : List (Nat × Nat) → Nat → Nat
  | [], _ => 0
  | (k, v) :: rest, key => if k == key then v else jl_get rest key

structure FlmBest where
  besti : Nat
  bestj : Nat
  bestsize : Nat
deriving DecidableEq, Repr

/-- Inner loop of `find_longest_match` over the occurrence list of `a[i]`:
thread `newj2len` and the current best through the `j` iteration
(`j < blo` continues, `j ≥ bhi` breaks). `j2len.get(j-1, 0)` at `j = 0`
reads the absent key `-1`, hence 0. -/
def flm_inner (j2len : List (Nat × Nat)) (i blo bhi : Nat) :
    List Nat → List (Nat × Nat) → FlmBest → List (Nat × Nat) × FlmBest
  | [], newj2len, best => (newj2len, best)
  | j :: js, newj2len, best =>
      if j < blo then flm_inner j2len i blo bhi js newj2len best
      else if j ≥ bhi then (newj2len, best)
      else
        let k := (if j = 0 then 0 else jl_get j2len (j - 1)) + 1
        let newj2len := (j, k) :: newj2len
        let best := if k > best.bestsize
          then { besti := i - k + 1, bestj := j - k + 1, bestsize := k }
          else best
        flm_inner j2len i blo bhi js newj2len best

/-- Outer loop of `find_longest_match` over `i ∈ [alo, ahi)`. -/
def flm_rows (a b : List Char) (blo bhi : Nat) :
    List Nat → List (Nat × Nat) → FlmBest → FlmBest
  | [], _, best => best
  | i :: is_, j2len, best =>
      let (newj2len, best') :=
        flm_inner j2len i blo bhi (b2j_lookup b (a.getD i ' ')) [] best
      flm_rows a b blo bhi is_ newj2len best'

/-- `SequenceMatcher.find_longest_match` (no junk). -/
def find_longest_match (a b : List Char) (alo ahi blo bhi : Nat) : FlmBest :=
  flm_rows a b blo bhi (List.range' alo (ahi - alo)) []
    { besti := alo, bestj := blo, bestsize := 0 }

/-- Queue recursion of `get_matching_blocks`, summed to the total matched
size (only the sum enters `ratio`). The fuel `len a + len b + 1` strictly
dominates the region measure, so it never runs out on the initial call. -/
def match_total_go (a b : List Char) :
    Nat → List (Nat × Nat × Nat × Nat) → Nat
  | 0, _ => 0
  | _ + 1, [] => 0
  | fuel + 1, (alo, ahi, blo, bhi) :: queue =>
      let best := find_longest_match a b alo ahi blo bhi
      if best.bestsize = 0 then match_total_go a b fuel queue
      else
        let queue :=
          (if alo < best.besti ∧ blo < best.bestj
           then [(alo, best.besti, blo, best.bestj)] else []) ++
          (if best.besti + best.bestsize < ahi ∧ best.bestj + best.bestsize < bhi
           then [(best.besti + best.bestsize, ahi,
                  best.bestj + best.bestsize, bhi)] else []) ++ queue
        best.bestsize + match_total_go a b fuel queue

/-- Total size of the matching blocks of `a` and `b`. -/
def match_total (a b : List Char) : Nat :=
  match_total_go a b (a.length + b.length + 1) [(0, a.length, 0, b.length)]

/-- `SequenceMatcher.ratio` as an exact rational:
`2·M / T`, and 1 when both strings are empty. -/
def ratioQ (a b : List Char) : ℚ :=
  let total := a.length + b.length
  if total = 0 then 1 else (2 * match_total a b : ℚ) / total

/-- `_fuzzy_match_strings` (utils.py lines 137–149). -/
def fuzzy_match_strings (str1 str2 : String) (threshold : ℚ) : Bool :=
  let s1 := strip_chars (lower_chars str1.data)
  let s2 := strip_chars (lower_chars str2.data)
  if s1 == s2 then true
  else decide (threshold ≤ ratioQ s1 s2)

/-- The accumulator loop of `_dedupe_with_fuzzy` (utils.py lines 152–179):
skip an item that case-insensitively equals, or fuzzily matches, one
already kept. -/
def dwf_go (threshold : ℚ) :
    List String → List String → List String → List String
  | [], _, _ => []
  | item :: rest, seen_normalized, seen_items =>
      let item_lower : String := ⟨strip_chars (lower_chars item.data)⟩
      if seen_normalized.contains item_lower then
        dwf_go threshold rest seen_normalized seen_items
      else if seen_items.any (fun s => fuzzy_match_strings item s threshold) then
        dwf_go threshold rest seen_normalized seen_items
      else
        item :: dwf_go threshold rest (item_lower :: seen_normalized)
          (item :: seen_items)

/-- Lexicographic `≤` on character lists (Python string ordering by code
point). -/
def chars_le : List Char → List Char → Bool
  | [], _ => true
  | _ :: _, [] => false
  | c :: cs, d :: ds => if c == d then chars_le cs ds else decide (c < d)

def str_le_b (a b : String) : Bool := chars_le a.data b.data

/-- Stable insertion into a `str_le_b`-sorted list (insert before the first
element the new one is ≤-below; equal elements keep first-come order). -/
def insert_str_sorted (x : String) : List String → List String
  | [] => [x]
  | y :: ys => if str_le_b x y then x :: y :: ys else y :: insert_str_sorted x ys

/-- Python `sorted` on strings, modelled as a stable insertion sort (Python
uses a stable mergesort; the two agree for a total preorder). -/
def sorted_strs : List String → List String
  | [] => []
  | x :: xs => insert_str_sorted x (sorted_strs xs)

/-- `_dedupe_with_fuzzy`: dedupe (case-insensitive then fuzzy), then sort. -/
def dedupe_with_fuzzy (items : List String) (threshold : ℚ := 17/20) :
    List String :=
  sorted_strs (dwf_go threshold items [] [])

/-! ## v1 deterministic merge (src/app/utils.py `merge_memories_deterministic`
and the per-scope `_merge_*` helpers) -/

/-- The per-memory dict passed to the merge by `_query_and_merge_memories`
(main.py lines 352–360). -/
structure MemDict where
  id : String
  value_json : JVal
  value_shape : String
  created_at : Nat

structure MergeResult where
  summary_text : String
  summary_struct : JVal
  confidence : ℚ

/-- Generic stable insertion sort with a boolean total preorder (placing a
new element before the first one it compares ≤ to keeps first-come order
among equals, matching Python's stable `sorted`). -/
def insert_le {α : Type} (le : α → α → Bool) (x : α) : List α → List α
  | [] => [x]
  | y :: ys => if le x y then x :: y :: ys else y :: insert_le le x ys

def sort_le {α : Type} (le : α → α → Bool) : List α → List α
  | [] => []
  | x :: xs => insert_le le x (sort_le le xs)

/-- The sort key of `merge_memories_deterministic`
(`(m["created_at"], str(m["id"]))`, utils.py line 201) as a boolean `≤`. -/
def mkey_le (a b : MemDict) : Bool :=
  decide (a.created_at < b.created_at)
    || (a.created_at == b.created_at && chars_le a.id.data b.id.data)

/-- `summary_text` truncation used by every `_merge_*` branch. -/
def truncate_240 (s : String) : String :=
  if s.length > 240 then String.mk (s.data.take 237) ++ "..." else s

/-- `min(0.9, 0.5 + len(memories) * 0.1)`. -/
def merge_confidence (n : Nat) : ℚ := min (9/10) (1/2 + (n : ℚ) * (1/10))

/-- `value.get(key, [])` when a list is expected (a present non-list value
would raise in Python's `extend`; shapes validated at write time never
produce one). -/
def get_arr (d : List (String × JVal)) (key : String) : List JVal :=
  match dget d key with
  | some (.arr l) => l
  | _ => []

/-- Squash `_`, spaces and `-` out of an already-lowercased key
(`key_lower.replace('_','').replace(' ','').replace('-','')`). -/
def norm_squash (s : String) : String :=
  String.mk (s.data.filter (fun c => ¬ (c = '_' ∨ c = ' ' ∨ c = '-')))

/-- One `kv_pairs` insertion of `_merge_preferences` (utils.py lines
239–267): keys are matched up to lowercase/strip plus squashing; on a
match the newer value wins (the fuzzy comparison in the source computes a
branch condition but both branches assign the newer value), otherwise the
lowercased key is added. -/
def kv_norm_put (kv : List (String × JVal)) (k : String) (v : JVal) :
    List (String × JVal) :=
  let key_lower : String := String.mk (strip_chars (lower_chars k.data))
  let key_normalized := norm_squash key_lower
  match kv.find? (fun p => norm_squash p.1 == key_normalized) with
  | some p => dset kv p.1 v
  | none => dset kv key_lower v

/-- The accumulation loop of `_merge_preferences` (utils.py lines 230–267). -/
def pref_step (acc : List JVal × List JVal × List (String × JVal))
    (mem : MemDict) : List JVal × List JVal × List (String × JVal) :=
  let (likes, dislikes, kv) := acc
  if mem.value_shape == "likes_dislikes" then
    match mem.value_json with
    | .obj d => (likes ++ get_arr d "likes", dislikes ++ get_arr d "dislikes", kv)
    | _ => acc
  else if mem.value_shape == "kv_map" then
    match mem.value_json with
    | .obj d => (likes, dislikes, d.foldl (fun a p => kv_norm_put a p.1 p.2) kv)
    | _ => acc
  else acc

/-- `_merge_preferences` (utils.py lines 224–290). -/
def merge_preferences (memories : List MemDict) : MergeResult :=
  let (all_likes, all_dislikes, kv_pairs) :=
    memories.foldl pref_step ([], [], [])
  let deduped_likes := dedupe_with_fuzzy
    ((all_likes.filter (fun l => !(JVal.beq l .null))).map jstr)
  let deduped_dislikes := dedupe_with_fuzzy
    ((all_dislikes.filter (fun l => !(JVal.beq l .null))).map jstr)
  { summary_text := truncate_240
      ("Likes: " ++ toString deduped_likes.length
        ++ ", Dislikes: " ++ toString deduped_dislikes.length
        ++ ", Settings: " ++ toString kv_pairs.length)
    summary_struct := .obj
      [("likes", .arr (deduped_likes.map .s)),
       ("dislikes", .arr (deduped_dislikes.map .s)),
       ("settings", .obj kv_pairs)]
    confidence := merge_confidence memories.length }

/-- Constructor rank, used only as the total-order fallback of `jle` on
mixed-type lists (where Python `sorted` would raise `TypeError`). -/
def jrank : JVal → Nat
  | .s _ => 0
  | .i _ => 1
  | .b _ => 2
  | .null => 3
  | .arr _ => 4
  | .obj _ => 5

/-- Python `sorted` order on rule entries: strings by code point; the
shape-valid payloads only ever sort homogeneous string lists. -/
def jle (a b : JVal) : Bool :=
  match a, b with
  | .s x, .s y => chars_le x.data y.data
  | .i x, .i y => decide (x ≤ y)
  | .b x, .b y => !x || y
  | _, _ => decide (jrank a ≤ jrank b)

/-- `_merge_constraints` (utils.py lines 293–325):
`sorted(list(set(rules)))` is a first-occurrence dedup followed by the
sort (Python's set iteration order is washed out by the sort). -/
def merge_constraints (memories : List MemDict) : MergeResult :=
  let (rules, kv_pairs) :=
    memories.foldl
      (fun (acc : List JVal × List (String × JVal)) mem =>
        let (rules, kv) := acc
        if mem.value_shape == "rules_list" then
          match mem.value_json with
          | .arr l => (rules ++ l, kv)
          | _ => acc
        else if mem.value_shape == "kv_map" then
          match mem.value_json with
          | .obj d => (rules, dupdate kv d)
          | _ => acc
        else acc)
      ([], [])
  let rules := sort_le jle (rules.eraseDups)
  { summary_text := truncate_240
      ("Rules: " ++ toString rules.length
        ++ ", Constraints: " ++ toString kv_pairs.length)
    summary_struct := .obj [("rules", .arr rules), ("constraints", .obj kv_pairs)]
    confidence := merge_confidence memories.length }

/-- `_merge_communication` (utils.py lines 328–349): a latest-wins kv map
over every dict-valued memory. -/
def merge_communication (memories : List MemDict) : MergeResult :=
  let kv_pairs :=
    memories.foldl
      (fun acc mem =>
        match mem.value_json with
        | .obj d => dupdate acc d
        | _ => acc)
      []
  { summary_text := truncate_240
      ("Communication preferences: " ++ toString kv_pairs.length ++ " settings")
    summary_struct := .obj [("preferences", .obj kv_pairs)]
    confidence := merge_confidence memories.length }

/-- `_merge_accessibility` (utils.py lines 352–380). -/
def merge_accessibility (memories : List MemDict) : MergeResult :=
  let (flags, kv_pairs) :=
    memories.foldl
      (fun (acc : List (String × JVal) × List (String × JVal)) mem =>
        let (flags, kv) := acc
        match mem.value_json with
        | .obj d =>
            if mem.value_shape == "boolean_flags" then (dupdate flags d, kv)
            else (flags, dupdate kv d)
        | _ => acc)
      ([], [])
  { summary_text := truncate_240
      ("Accessibility: " ++ toString flags.length ++ " flags, "
        ++ toString kv_pairs.length ++ " settings")
    summary_struct := .obj [("flags", .obj flags), ("settings", .obj kv_pairs)]
    confidence := merge_confidence memories.length }

/-- Python `==` between two sorted window-identity key lists. -/
def wkey_beq : List (String × JVal) → List (String × JVal) → Bool
  | [], [] => true
  | (k, v) :: xs, (k', v') :: ys => k == k' && JVal.beq v v' && wkey_beq xs ys
  | _, _ => false

/-- The window dedup loop of `_merge_schedule` (utils.py lines 396–406):
a dict window's identity is the key-sorted list of its items (keys are
unique, so sorting item tuples orders by key); non-dict windows are kept
unconditionally. -/
def sched_dedupe : List JVal → List (List (String × JVal)) → List JVal
  | [], _ => []
  | w :: ws, seen =>
      match w with
      | .obj d =>
          let key := sort_le (fun p q => chars_le p.1.data q.1.data) d
          if seen.any (fun s => wkey_beq s key) then sched_dedupe ws seen
          else w :: sched_dedupe ws (key :: seen)
      | _ => w :: sched_dedupe ws seen

/-- `_merge_schedule` (utils.py lines 383–420). -/
def merge_schedule (memories : List MemDict) : MergeResult :=
  let windows :=
    memories.foldl
      (fun (acc : List JVal) mem =>
        if mem.value_shape == "schedule_windows" then
          match mem.value_json with
          | .arr l => acc ++ l
          | .obj d => acc ++ [.obj d]
          | _ => acc
        else acc)
      []
  let deduped := sched_dedupe windows []
  { summary_text := truncate_240
      ("Schedule: " ++ toString deduped.length ++ " time windows")
    summary_struct := .obj [("windows", .arr deduped)]
    confidence := merge_confidence memories.length }

/-- `_merge_attention` (utils.py lines 423–444). -/
def merge_attention (memories : List MemDict) : MergeResult :=
  let settings :=
    memories.foldl
      (fun acc mem =>
        match mem.value_json with
        | .obj d => dupdate acc d
        | _ => acc)
      []
  { summary_text := truncate_240
      ("Attention settings: " ++ toString settings.length ++ " preferences")
    summary_struct := .obj [("settings", .obj settings)]
    confidence := merge_confidence memories.length }

/-- `merge_memories_deterministic` (utils.py lines 182–221): sort by
`(created_at, str(id))`, then dispatch on the scope. -/
def merge_memories_deterministic (memories : List MemDict) (scope : String) :
    MergeResult :=
  if memories.isEmpty then
    { summary_text := "No memories found.", summary_struct := .obj [],
      confidence := 0 }
  else
    let sorted_memories := sort_le mkey_le memories
    if scope == "preferences" then merge_preferences sorted_memories
    else if scope == "constraints" then merge_constraints sorted_memories
    else if scope == "communication" then merge_communication sorted_memories
    else if scope == "accessibility" then merge_accessibility sorted_memories
    else if scope == "schedule" then merge_schedule sorted_memories
    else if scope == "attention" then merge_attention sorted_memories
    else
      { summary_text := "Unknown scope: " ++ scope, summary_struct := .obj [],
        confidence := 0 }

/-! ## v1 read path (src/app/main.py `_query_and_merge_memories`) -/

structure MemoryV1Row where
  id : String
  user_id : String
  scope : String
  domain : Option String := none
  value_json : JVal
  value_shape : String
  created_at : Nat
  expires_at : Nat
  app_id : String

/-- `_query_and_merge_memories` (main.py lines 318–364). Timestamps are in
days so that `max_age_days` subtracts directly; `if max_age_days:` treats 0
as absent (Python truthiness). Returns the merged result and the fetched
memory ids. -/
def query_and_merge_memories (store : List MemoryV1Row)
    (app_id user_id scope : String) (domain : Option String)
    (max_age_days : Option Nat) (now : Nat) : MergeResult × List String :=
  let q := store.filter (fun m =>
    m.user_id == user_id && m.scope == scope
      && decide (now < m.expires_at) && m.app_id == app_id)
  let q := match domain with
    | some d => q.filter (fun m => m.domain == some d)
    | none => q.filter (fun m => m.domain.isNone)
  let q := match max_age_days with
    | some days =>
        if days = 0 then q
        else q.filter (fun m => decide (now - days ≤ m.created_at))
    | none => q
  let ms := (sort_le (fun a b => decide (b.created_at ≤ a.created_at)) q).take 50
  let memory_ids := ms.map (·.id)
  let dicts := ms.map (fun m =>
    { id := m.id, value_json := m.value_json, value_shape := m.value_shape,
      created_at := m.created_at : MemDict })
  (merge_memories_deterministic dicts scope, memory_ids)

inductive ContinueOutcome where
  | notFound                  -- 404 "Revocation token not found"
  | revokedError              -- 403 detail "REVOKED"
  -- 200: merged summary, audited ids, the grant's expires_at
  -- (the same token is echoed back)
  | ok (merged : MergeResult) (memory_ids : List String) (expires_at : Nat)

/-- `continue_read_memory` (main.py lines 491–560): unknown token → 404;
revoked → 403 REVOKED; expired → 403 REVOKED; otherwise re-run the read
with the grant's frozen parameters (`max_age_days` overridable per
request) and return the summary with the same token. -/
def continue_read_memory (grants : List ReadGrant) (v1_store : List MemoryV1Row)
    (app_id token_hash : String) (req_max_age_days : Option Nat) (now : Nat) :
    ContinueOutcome :=
  match grants.find? (grant_matches token_hash app_id) with
  | none => .notFound
  | some g =>
      if g.revoked_at.isSome then .revokedError
      else if g.expires_at < now then .revokedError
      else
        let max_age_days :=
          if req_max_age_days.isSome then req_max_age_days else g.max_age_days
        let (merged, memory_ids) := query_and_merge_memories v1_store app_id
          g.user_id g.scope g.domain max_age_days now
        .ok merged memory_ids g.expires_at

/-! ## Shared concrete fixtures for witnesses and counterexamples -/

def ex_scope : Scope := { scope_type := .user, scope_id := "u_1" }

def ex_ownership : Ownership := { owner_type := "user", claimant := "u_1" }

def ex_temporal : Temporal := { occurred_at_observed := 0 }

def ex_provenance : Provenance := { source := .user }

def oracle_cid : Nat → String := fun n => "con_" ++ toString n

/-- The C1/S4 ingest input: an event with `sensitivity.categories =
["shame"]` and `truth_mode = subjective_experience`. -/
def c1_event : MemoryObject :=
  { id := "mem_c1", tenant_id := "t_1", scope := ex_scope, type := .event,
    truth_mode := .subjective_experience, state := .active,
    sensitivity := { level := .high, categories := ["shame"],
                     handling := .sealed_default },
    ownership := ex_ownership, temporal := ex_temporal,
    content := { text := some "I felt ashamed" },
    provenance := ex_provenance }

/-! ## Claim theorems -/

/-- C1 (code_bug): ingesting an event whose `sensitivity.categories`
contains "shame" does NOT seal it. `_match_condition` tests
`actual_value in condition_value`; for `memory.sensitivity.categories` the
actual value is the whole category *list*, which is never an element of
the rule's string list, so `seal_sensitive_events` never matches: the
ingest decision keeps state `active` with an empty `matched_rules`, and
the create response's state is `active`, contradicting the claim (and the
rule's own evident purpose, the endpoint docstring "sealed for sensitive
events" and the demo script's expectation). -/
theorem c1_seal_rule_never_fires_on_ingest :
    (evaluate_ingest default_policy c1_event).state = .active ∧
    (evaluate_ingest default_policy c1_event).matched_rules = [] ∧
    (∀ db app_id cid impact_id now, ∃ db',
      create_memory_v2 default_policy db c1_event app_id cid impact_id now none
        = .ok (db', .active)) := by
  refine ⟨by decide, by decide, ?_⟩
  intro db app_id cid impact_id now
  exact ⟨_, rfl⟩

/-- Every value `normalize_purpose` can return. -/
lemma normalize_purpose_cases (p : String) :
    normalize_purpose p = "content_generation" ∨
    normalize_purpose p = "recommendation" ∨
    normalize_purpose p = "scheduling" ∨
    normalize_purpose p = "ui_rendering" ∨
    normalize_purpose p = "notification_delivery" ∨
    normalize_purpose p = "task_execution" := by
  simp only [normalize_purpose]
  split_ifs <;> simp

/-- C9: purpose normalization is idempotent — every string it can return
(each of the six purpose classes) is mapped to itself, so
`normalize_purpose (normalize_purpose p) = normalize_purpose p` for every
input string `p`. -/
theorem c9_normalize_purpose_idempotent (p : String) :
    normalize_purpose (normalize_purpose p) = normalize_purpose p := by
  rcases normalize_purpose_cases p with h|h|h|h|h|h <;> rw [h] <;> decide

/-- C10: every impact the extractor produces copies the source event's
`content` field verbatim (including `content.text`) into the impact's own
`content` — alongside the inherited sensitivity, ownership, temporal,
affect and strength — so the event's narrative text is persisted inside
every derived impact row. -/
theorem c10_impact_copies_event_content (event : MemoryObject) (pa : Bool)
    (cid : Nat → String) (impact_id : String) (now : Nat)
    (impact : MemoryObject)
    (h : extract_impacts event pa cid impact_id now = some impact) :
    impact.content = event.content ∧ impact.sensitivity = event.sensitivity ∧
    impact.ownership = event.ownership ∧ impact.temporal = event.temporal ∧
    impact.affect = event.affect ∧ impact.strength = event.strength := by
  simp only [extract_impacts] at h
  split_ifs at h
  all_goals injection h with h'
  all_goals subst h'
  all_goals exact ⟨rfl, rfl, rfl, rfl, rfl, rfl⟩

/-- C10 witness: the extractor on the concrete sensitive event yields an
impact whose content equals the event's content. -/
theorem c10_impact_copies_event_content_witness :
    ((extract_impacts c1_event true oracle_cid "mem_impact" 5).get
        (by rfl)).content = c1_event.content :=
  (c10_impact_copies_event_content c1_event true oracle_cid "mem_impact" 5 _
    (Option.some_get (by rfl)).symm).1

/-- A non-sealed event carrying the "shame" category but sensitivity level
`low`: the C7 counterexample input. -/
def c7_low_event : MemoryObject :=
  { id := "mem_c7", tenant_id := "t_1", scope := ex_scope, type := .event,
    truth_mode := .subjective_experience, state := .active,
    sensitivity := { level := .low, categories := ["shame"],
                     handling := .normal },
    ownership := ex_ownership, temporal := ex_temporal,
    content := {}, provenance := ex_provenance }

/-- C7 counterexample: a non-sealed event whose categories contain "shame"
(and for which impact derivation is allowed) yields NO impact at all —
`extract_impacts` only emits the sensitivity-driven constraints when
`sensitivity.level ∈ {high, critical}` (impact_extraction.py line 80), so
with level `low` the claimed avoid/tone constraints are not produced. -/
theorem c7_low_sensitivity_yields_no_constraints :
    c7_low_event.state ≠ .sealed ∧
    c7_low_event.sensitivity.categories.contains "shame" = true ∧
    extract_impacts c7_low_event true oracle_cid "mem_impact" 0 = none :=
  ⟨by decide, by decide, by rfl⟩

/-- C7 (amended): for every non-sealed event whose sensitivity **level is
high or critical** and whose categories contain shame or moral_injury,
with derivation allowed, the extractor emits an impact containing both an
`avoid` constraint with `content_class = judgment_language` and a `tone`
constraint with `tone_profile = non_judgmental` — and a `safety`
constraint with `mode = supportive_reframe_only`, `consent_required =
true` whenever trauma is present. -/
theorem c7_sensitive_event_constraints (event : MemoryObject)
    (cid : Nat → String) (impact_id : String) (now : Nat)
    (htype : event.type = .event)
    (hstate : event.state ≠ .sealed)
    (hlevel : event.sensitivity.level = .high ∨
              event.sensitivity.level = .critical)
    (hcat : event.sensitivity.categories.contains "shame" = true ∨
            event.sensitivity.categories.contains "moral_injury" = true) :
    ∃ impact, extract_impacts event true cid impact_id now = some impact ∧
      (∃ c ∈ impact.impact_payload.getD [], c.kind = .avoid ∧
        plookup c.params "content_class" = some (.s "judgment_language")) ∧
      (∃ c ∈ impact.impact_payload.getD [], c.kind = .tone ∧
        plookup c.params "tone_profile" = some (.s "non_judgmental")) ∧
      (event.sensitivity.categories.contains "trauma" = true →
        ∃ c ∈ impact.impact_payload.getD [], c.kind = .safety ∧
          plookup c.params "mode" = some (.s "supportive_reframe_only") ∧
          plookup c.params "consent_required" = some (.b true)) := by
  have hlevel' : event.sensitivity.level ∈
      [SensitivityLevel.high, SensitivityLevel.critical] := by
    rcases hlevel with h | h <;> simp [h]
  have hmem : "shame" ∈ event.sensitivity.categories ∨
      "moral_injury" ∈ event.sensitivity.categories := by
    rcases hcat with h | h
    · exact Or.inl (by simpa using h)
    · exact Or.inr (by simpa using h)
  by_cases htr : "trauma" ∈ event.sensitivity.categories
  · refine ⟨build_impact_memory event
        ([create_safety_constraint event (cid 0) now
            "supportive_reframe_only" true] ++
          [create_avoid_constraint event (cid 1) now "judgment_language",
           create_tone_constraint event (cid 2) now "non_judgmental"] ++
          content_constraints event cid now)
        impact_id now, ?_, ?_, ?_, ?_⟩
    · simp only [extract_impacts]
      simp [hstate, hlevel', hmem, htr, htype]
    · exact ⟨create_avoid_constraint event (cid 1) now "judgment_language",
        by simp [build_impact_memory],
        by simp [create_avoid_constraint],
        by simp [create_avoid_constraint, plookup]⟩
    · exact ⟨create_tone_constraint event (cid 2) now "non_judgmental",
        by simp [build_impact_memory],
        by simp [create_tone_constraint],
        by simp [create_tone_constraint, plookup]⟩
    · intro _
      exact ⟨create_safety_constraint event (cid 0) now
          "supportive_reframe_only" true,
        by simp [build_impact_memory],
        by simp [create_safety_constraint],
        by simp [create_safety_constraint, plookup],
        by simp [create_safety_constraint, plookup]⟩
  · refine ⟨build_impact_memory event
        ([create_avoid_constraint event (cid 1) now "judgment_language",
          create_tone_constraint event (cid 2) now "non_judgmental"] ++
          content_constraints event cid now)
        impact_id now, ?_, ?_, ?_, ?_⟩
    · simp only [extract_impacts]
      simp [hstate, hlevel', hmem, htr, htype]
    · exact ⟨create_avoid_constraint event (cid 1) now "judgment_language",
        by simp [build_impact_memory],
        by simp [create_avoid_constraint],
        by simp [create_avoid_constraint, plookup]⟩
    · exact ⟨create_tone_constraint event (cid 2) now "non_judgmental",
        by simp [build_impact_memory],
        by simp [create_tone_constraint],
        by simp [create_tone_constraint, plookup]⟩
    · intro htr'
      exact absurd (by simpa using htr' : "trauma" ∈ event.sensitivity.categories) htr

/-- C7 witness: the amended theorem applied to the concrete high-level
shame event. -/
theorem c7_sensitive_event_constraints_witness :
    ∃ impact, extract_impacts c1_event true oracle_cid "mem_impact" 0
        = some impact ∧
      (∃ c ∈ impact.impact_payload.getD [], c.kind = .avoid ∧
        plookup c.params "content_class" = some (.s "judgment_language")) ∧
      (∃ c ∈ impact.impact_payload.getD [], c.kind = .tone ∧
        plookup c.params "tone_profile" = some (.s "non_judgmental")) ∧
      (c1_event.sensitivity.categories.contains "trauma" = true →
        ∃ c ∈ impact.impact_payload.getD [], c.kind = .safety ∧
          plookup c.params "mode" = some (.s "supportive_reframe_only") ∧
          plookup c.params "consent_required" = some (.b true)) :=
  c7_sensitive_event_constraints c1_event oracle_cid "mem_impact" 0
    (by decide) (by decide) (Or.inl (by decide)) (Or.inl (by decide))

def c6_db0 : DBState := { memories := [], links := [] }

/-- C6 counterexample: a v2 ingest is not atomic. With the link insert
failing, the ingest errors out (HTTP 500) yet the already-committed event
and impact rows remain in the store — partial rows survive a failed
ingest. -/
theorem c6_ingest_not_atomic_counterexample :
    ∃ db', create_memory_v2 default_policy c6_db0 c1_event "app_1" oracle_cid
        "mem_impact" 3 (some .storeLinkRow) = .error db' ∧
      db'.memories.map (fun r => r.1.id) = ["mem_c1", "mem_impact"] ∧
      db'.links = [] :=
  ⟨_, rfl, rfl, rfl⟩

/-- C6 (amended): each insert of a v2 ingest commits independently (and
ingest writes no audit row at all). Only a failure at the initial event
insert leaves the store untouched; a failure at the link insert leaves the
already-committed event row (with its policy-applied state) and the
derived impact row behind. -/
theorem c6_ingest_commits_stepwise (pol : Policy) (db : DBState)
    (mem : MemoryObject) (app_id : String) (cid : Nat → String)
    (impact_id : String) (now : Nat) :
    create_memory_v2 pol db mem app_id cid impact_id now
        (some .storeEventRow) = .error db ∧
    (∀ impact,
      extract_impacts { mem with state := (evaluate_ingest pol mem).state }
          true cid impact_id now = some impact →
      (evaluate_ingest pol mem).derive_impacts = true →
      mem.type = .event →
      create_memory_v2 pol db mem app_id cid impact_id now
          (some .storeLinkRow) =
        .error (store_memory_db
          (store_memory_db db
            { mem with state := (evaluate_ingest pol mem).state } app_id)
          impact app_id)) := by
  constructor
  · simp [create_memory_v2]
  · intro impact hx hd ht
    rw [ht] at hx
    simp [create_memory_v2, hx, hd, ht]

/-- C6 witness: the stepwise-commit theorem applied to the concrete
sensitive event, whose derived impact exists. -/
theorem c6_ingest_commits_stepwise_witness :
    create_memory_v2 default_policy c6_db0 c1_event "app_1" oracle_cid
        "mem_impact" 3 (some .storeLinkRow) =
      .error (store_memory_db
        (store_memory_db c6_db0
          { c1_event with
              state := (evaluate_ingest default_policy c1_event).state }
          "app_1")
        ((extract_impacts
            { c1_event with
                state := (evaluate_ingest default_policy c1_event).state }
            true oracle_cid "mem_impact" 3).get (by rfl))
        "app_1") :=
  (c6_ingest_commits_stepwise default_policy c6_db0 c1_event "app_1"
      oracle_cid "mem_impact" 3).2 _
    (Option.some_get (by rfl)).symm (by decide) (by decide)

/-- Revoking an unrevoked grant found by (hash, app): the first revoke
succeeds and the updated store's lookup now yields the grant with
`revoked_at` and `revoke_reason` set. -/
lemma revoke_memory_ok (app_id token_hash : String) (now : Nat) :
    ∀ (grants : List ReadGrant) (g : ReadGrant),
    grants.find? (grant_matches token_hash app_id) = some g →
    g.revoked_at = none →
    ∃ grants', revoke_memory app_id token_hash now grants = (.ok now, grants') ∧
      grants'.find? (grant_matches token_hash app_id) =
        some { g with revoked_at := some now,
                      revoke_reason := some "user_requested" } := by
  intro grants
  induction grants with
  | nil => intro g hfind _; simp at hfind
  | cons g0 gs ih =>
      intro g hfind hrev
      cases hm0 : grant_matches token_hash app_id g0 with
      | true =>
          rw [List.find?_cons_of_pos _ hm0] at hfind
          obtain rfl : g0 = g := by injection hfind
          have hm1 : grant_matches token_hash app_id
              { g0 with revoked_at := some now,
                        revoke_reason := some "user_requested" } = true := by
            simpa [grant_matches] using hm0
          refine ⟨{ g0 with revoked_at := some now,
                            revoke_reason := some "user_requested" } :: gs,
            ?_, ?_⟩
          · simp [revoke_memory, hm0, hrev]
          · rw [List.find?_cons_of_pos _ hm1]
      | false =>
          rw [List.find?_cons_of_neg _ (by simp [hm0])] at hfind
          obtain ⟨gs', h1, h2⟩ := ih g hfind hrev
          refine ⟨g0 :: gs', ?_, ?_⟩
          · simp [revoke_memory, hm0, h1]
          · rw [List.find?_cons_of_neg _ (by simp [hm0])]
            exact h2

/-- Revoking a grant that is already revoked (or, with an empty store, an
unknown token) returns 404 and leaves the store unchanged. -/
lemma revoke_memory_already (app_id token_hash : String) (now : Nat) :
    ∀ (grants : List ReadGrant) (g : ReadGrant),
    grants.find? (grant_matches token_hash app_id) = some g →
    g.revoked_at.isSome →
    revoke_memory app_id token_hash now grants = (.notFound, grants) := by
  intro grants
  induction grants with
  | nil => intro g hfind _; simp at hfind
  | cons g0 gs ih =>
      intro g hfind hrev
      cases hm0 : grant_matches token_hash app_id g0 with
      | true =>
          rw [List.find?_cons_of_pos _ hm0] at hfind
          obtain rfl : g0 = g := by injection hfind
          obtain ⟨t, ht⟩ := Option.isSome_iff_exists.mp hrev
          simp [revoke_memory, hm0, ht]
      | false =>
          rw [List.find?_cons_of_neg _ (by simp [hm0])] at hfind
          have h1 := ih g hfind hrev
          simp [revoke_memory, hm0, h1]

/-- C5: a revocation token whose grant is present and unrevoked is accepted
by exactly one `/memory/revoke` — that revoke returns `{revoked: true,
revoked_at = now}` and stamps the grant; afterwards every
`/memory/read/continue` with the same token fails 403 REVOKED, and every
further `/memory/revoke` fails 404 with the store untouched, yielding the
same response as revoking a token unknown to the store. -/
theorem c5_grant_revocation_round_trip (grants : List ReadGrant)
    (g : ReadGrant) (app_id token_hash : String) (now : Nat)
    (hfind : grants.find? (grant_matches token_hash app_id) = some g)
    (hunrevoked : g.revoked_at = none) :
    ∃ grants',
      revoke_memory app_id token_hash now grants = (.ok now, grants') ∧
      (∀ v1_store mr t,
        continue_read_memory grants' v1_store app_id token_hash mr t
          = .revokedError) ∧
      (∀ t, revoke_memory app_id token_hash t grants' = (.notFound, grants')) ∧
      (∀ t, (revoke_memory app_id token_hash t grants').1 =
        (revoke_memory app_id token_hash t ([] : List ReadGrant)).1) := by
  obtain ⟨grants', h1, h2⟩ :=
    revoke_memory_ok app_id token_hash now grants g hfind hunrevoked
  have halready : ∀ t, revoke_memory app_id token_hash t grants'
      = (.notFound, grants') := by
    intro t
    exact revoke_memory_already app_id token_hash t grants' _ h2 (by simp)
  refine ⟨grants', h1, ?_, halready, ?_⟩
  · intro v1_store mr t
    simp [continue_read_memory, h2]
  · intro t
    rw [halready t]
    simp [revoke_memory]

def c5_grant : ReadGrant :=
  { revocation_token_hash := "h1", user_id := "u1", app_id := "a1",
    scope := "preferences", purpose := "generate content",
    purpose_class := "content_generation", created_at := 0,
    expires_at := 24 }

/-- C5 witness: the round trip on a concrete one-grant store. -/
theorem c5_grant_revocation_round_trip_witness :
    ∃ grants',
      revoke_memory "a1" "h1" 5 [c5_grant] = (.ok 5, grants') ∧
      (∀ v1_store mr t,
        continue_read_memory grants' v1_store "a1" "h1" mr t
          = .revokedError) ∧
      (∀ t, revoke_memory "a1" "h1" t grants' = (.notFound, grants')) ∧
      (∀ t, (revoke_memory "a1" "h1" t grants').1 =
        (revoke_memory "a1" "h1" t ([] : List ReadGrant)).1) :=
  c5_grant_revocation_round_trip [c5_grant] c5_grant "a1" "h1" 5
    (by rfl) rfl

/-- A plain active event used by the C3/S5 scenario, parameterized over id,
tenant, scope and truth mode. -/
def c3_event (id tenant : String) (sc : Scope) (tm : TruthMode) : MemoryObject :=
  { id := id, tenant_id := tenant, scope := sc, type := .event,
    truth_mode := tm, state := .active,
    ownership := ex_ownership, temporal := ex_temporal,
    content := {}, provenance := ex_provenance }

def c3_mem_a : MemoryObject := c3_event "mem_a" "t_1" ex_scope .factual_claim

def c3_mem_b : MemoryObject := c3_event "mem_b" "t_1" ex_scope .counterfactual

/-- C3 counterexample: with A (factual_claim) and B (counterfactual) stored
in the same tenant and scope, the default-policy task_execution query does
NOT return A — `memory_ids` is empty, because the default read decision is
deny and no default rule grants `allow_read` for task_execution, so A is
denied alongside B. -/
theorem c3_task_query_counterexample :
    (retrieve_for_purpose default_policy [c3_mem_a, c3_mem_b] "t_1" ex_scope
        .task_execution none 50).memory_ids = [] ∧
    "mem_a" ∉ (retrieve_for_purpose default_policy [c3_mem_a, c3_mem_b] "t_1"
        ex_scope .task_execution none 50).memory_ids ∧
    "mem_b" ∈ (retrieve_for_purpose default_policy [c3_mem_a, c3_mem_b] "t_1"
        ex_scope .task_execution none 50).denied_ids := by
  decide

/-- C3 (amended): for two memories A (truth_mode factual_claim) and B
(truth_mode counterfactual) stored in the same tenant and scope, the v2
task_execution query under the default policy returns `memory_ids = []`
and `denied_ids = [A.id, B.id]`: B is denied by `deny_nonfactual_for_tools`
and A falls through to the fail-closed `read: deny` default, since no
default rule expresses an allow for task_execution. -/
theorem c3_task_query_denies_both (idA idB tenant : String) (sc : Scope) :
    (retrieve_for_purpose default_policy
        [c3_event idA tenant sc .factual_claim,
         c3_event idB tenant sc .counterfactual]
        tenant sc .task_execution none 50).memory_ids = [] ∧
    (retrieve_for_purpose default_policy
        [c3_event idA tenant sc .factual_claim,
         c3_event idB tenant sc .counterfactual]
        tenant sc .task_execution none 50).denied_ids = [idA, idB] := by
  constructor <;>
    simp [retrieve_for_purpose, query_memories, order_desc, purpose_filters,
      row_passes, text_search_passes, process_rows, task_filter,
      evaluate_query, query_context, match_rule, match_condition, split_dot,
      split_char_aux, resolve_path, ctx_get, match_value, default_policy,
      List.insertionSort, List.orderedInsert, c3_event, ex_scope,
      ex_ownership, ex_temporal, ex_provenance, beq_self_eq_true,
      MemoryType.value, TruthMode.value, MemoryState.value,
      SensitivityLevel.value, SensitivityHandling.value, DisputeState.value,
      PurposeType.value, ScopeType.value, bne, List.filter_cons,
      List.filter_nil]

/-- C3 witness: the amended theorem at the concrete S5 fixtures. -/
theorem c3_task_query_denies_both_witness :
    (retrieve_for_purpose default_policy [c3_mem_a, c3_mem_b] "t_1" ex_scope
        .task_execution none 50).memory_ids = [] ∧
    (retrieve_for_purpose default_policy [c3_mem_a, c3_mem_b] "t_1" ex_scope
        .task_execution none 50).denied_ids = ["mem_a", "mem_b"] :=
  c3_task_query_denies_both "mem_a" "mem_b" "t_1" ex_scope

/-- Every memory the per-row loop admits comes from the processed list and
was allowed by the query policy. -/
lemma process_rows_allowed_mem (pol : Policy) (p : PurposeType) :
    ∀ (ms : List MemoryObject) (m : MemoryObject),
    m ∈ (process_rows pol p ms).allowed →
    m ∈ ms ∧ (evaluate_query pol m p).allowed = true := by
  intro ms
  induction ms with
  | nil => intro m hm; simp [process_rows] at hm
  | cons x xs ih =>
      intro m hm
      simp only [process_rows] at hm
      split at hm
      case isTrue hx =>
        split at hm <;> [skip; skip; split at hm] <;>
          simp only [List.mem_cons] at hm <;>
          [rcases hm with rfl | hm; rcases hm with rfl | hm;
           rcases hm with rfl | hm; rcases hm with rfl | hm] <;>
          first
            | exact ⟨List.mem_cons_self _ _, hx⟩
            | (obtain ⟨h1, h2⟩ := ih m hm
               exact ⟨List.mem_cons_of_mem _ h1, h2⟩)
      case isFalse hx =>
        simp only at hm
        obtain ⟨h1, h2⟩ := ih m hm
        exact ⟨List.mem_cons_of_mem _ h1, h2⟩

/-- Every processed memory ends up either admitted or with its id recorded
as denied. -/
lemma process_rows_covers (pol : Policy) (p : PurposeType) :
    ∀ (ms : List MemoryObject) (m : MemoryObject), m ∈ ms →
    m ∈ (process_rows pol p ms).allowed ∨
      m.id ∈ (process_rows pol p ms).denied_ids := by
  intro ms
  induction ms with
  | nil => intro m hm; simp at hm
  | cons x xs ih =>
      intro m hm
      rcases List.mem_cons.mp hm with rfl | hm
      · simp only [process_rows]
        split
        case isTrue hx =>
          split <;> [skip; skip; split] <;> simp
        case isFalse hx => simp
      · have hrec := ih m hm
        simp only [process_rows]
        split
        case isTrue hx =>
          split <;> [skip; skip; split] <;>
            simpa using hrec.imp (fun h => List.mem_cons_of_mem _ h) id
        case isFalse hx =>
          simpa using hrec.imp id (fun h => List.mem_cons_of_mem _ h)

/-- A nonfactual memory in the allowed list is recorded as denied by the
task-execution post-filter. -/
lemma task_filter_denies :
    ∀ (l : List MemoryObject) (m : MemoryObject), m ∈ l →
    m.truth_mode ∈ nonfactual_truth_modes → m.id ∈ (task_filter l).2 := by
  intro l
  induction l with
  | nil => intro m hm; simp at hm
  | cons x xs ih =>
      intro m hm hnf
      rcases List.mem_cons.mp hm with rfl | hm
      · simp only [task_filter]
        rw [if_pos hnf]
        simp
      · have := ih m hm hnf
        simp only [task_filter]
        split
        · simpa using Or.inr this
        · simpa using this

/-- Members surviving the task-execution post-filter come from the input
and are not nonfactual. -/
lemma task_filter_sub :
    ∀ (l : List MemoryObject) (m : MemoryObject), m ∈ (task_filter l).1 →
    m ∈ l ∧ m.truth_mode ∉ nonfactual_truth_modes := by
  intro l
  induction l with
  | nil => intro m hm; simp [task_filter] at hm
  | cons x xs ih =>
      intro m hm
      simp only [task_filter] at hm
      split at hm
      · obtain ⟨h1, h2⟩ := ih m hm
        exact ⟨List.mem_cons_of_mem _ h1, h2⟩
      · rcases List.mem_cons.mp hm with rfl | hm
        · exact ⟨List.mem_cons_self _ _, by assumption⟩
        · obtain ⟨h1, h2⟩ := ih m hm
          exact ⟨List.mem_cons_of_mem _ h1, h2⟩

/-- Rows returned by the store query are rows of the store. -/
lemma query_memories_subset (store : List MemoryObject) (tenant_id : String)
    (scope : Scope) (filters : QueryFilters) (limit : Nat)
    (query_text : Option String) (m : MemoryObject)
    (hm : m ∈ query_memories store tenant_id scope filters limit query_text) :
    m ∈ store := by
  have h1 := List.take_subset _ _ hm
  rw [order_desc, List.mem_insertionSort] at h1
  exact List.mem_of_mem_filter (List.mem_of_mem_filter h1)

/-- Rows returned by the store query satisfy the SQL filter. -/
lemma query_memories_passes (store : List MemoryObject) (tenant_id : String)
    (scope : Scope) (filters : QueryFilters) (limit : Nat)
    (query_text : Option String) (m : MemoryObject)
    (hm : m ∈ query_memories store tenant_id scope filters limit query_text) :
    row_passes tenant_id scope filters m = true := by
  have h1 := List.take_subset _ _ hm
  rw [order_desc, List.mem_insertionSort] at h1
  exact List.of_mem_filter (List.mem_of_mem_filter h1)

/-- C4: any memory with a nonfactual truth_mode (counterfactual, imagined,
socially_sourced) fetched by a v2 task_execution query has its id recorded
in `denied_ids` and never in `memory_ids` — for every policy, i.e.
independently of the declared rules, because the retrieval engine's
post-filter removes nonfactual rows even when the policy allowed them
(ids are unique per store row, expressed by `huniq`). -/
theorem c4_nonfactual_blocked_for_tools (pol : Policy)
    (store : List MemoryObject) (tenant_id : String) (scope : Scope)
    (query_text : Option String) (limit : Nat) (m : MemoryObject)
    (hm : m ∈ query_memories store tenant_id scope
      (purpose_filters .task_execution) (limit * 2) query_text)
    (hnf : m.truth_mode ∈ nonfactual_truth_modes)
    (huniq : ∀ m' ∈ store, m'.id = m.id → m' = m) :
    m.id ∈ (retrieve_for_purpose pol store tenant_id scope .task_execution
      query_text limit).denied_ids ∧
    m.id ∉ (retrieve_for_purpose pol store tenant_id scope .task_execution
      query_text limit).memory_ids := by
  constructor
  · rcases process_rows_covers pol .task_execution _ m hm with hA | hD
    · simp only [retrieve_for_purpose, if_pos rfl]
      exact List.mem_append.mpr (Or.inr (task_filter_denies _ m hA hnf))
    · simp only [retrieve_for_purpose, if_pos rfl]
      exact List.mem_append.mpr (Or.inl hD)
  · intro hmem
    simp only [retrieve_for_purpose, if_pos rfl] at hmem
    obtain ⟨m', hm', hid⟩ := List.mem_map.mp hmem
    obtain ⟨hall, hnot⟩ := task_filter_sub _ m' hm'
    have hfetched := (process_rows_allowed_mem pol .task_execution _ m' hall).1
    have hstore := query_memories_subset _ _ _ _ _ _ _ hfetched
    have heq := huniq m' hstore hid
    rw [heq] at hnot
    exact hnot hnf

/-- C4 witness: the concrete counterfactual memory is denied and excluded
under the default policy. -/
theorem c4_nonfactual_blocked_for_tools_witness :
    "mem_b" ∈ (retrieve_for_purpose default_policy [c3_mem_b] "t_1" ex_scope
      .task_execution none 50).denied_ids ∧
    "mem_b" ∉ (retrieve_for_purpose default_policy [c3_mem_b] "t_1" ex_scope
      .task_execution none 50).memory_ids :=
  c4_nonfactual_blocked_for_tools default_policy [c3_mem_b] "t_1" ex_scope
    none 50 c3_mem_b
    (by simp [query_memories, order_desc, purpose_filters, row_passes,
      text_search_passes, c3_mem_b, c3_event, ex_scope, ex_ownership,
      List.insertionSort, List.orderedInsert, MemoryState.value,
      DisputeState.value, ScopeType.value, beq_self_eq_true, bne])
    (by decide)
    (by intro m' hm' _; simpa using hm')

/-- Fail-closed query evaluation: with `read: deny` defaults, a memory can
only be allowed if some matching rule opines `allow_read: true`. -/
lemma evaluate_query_denied_of_no_allow (pol : Policy) (m : MemoryObject)
    (p : PurposeType)
    (hdef : pol.defaults.read = .deny)
    (h : ∀ r ∈ pol.rules, match_rule r (query_context m p) = true →
      r.then_acts.allow_read ≠ some true) :
    (evaluate_query pol m p).allowed = false := by
  simp only [evaluate_query]
  have hall : ∀ b ∈ (pol.rules.filter
      (fun r => match_rule r (query_context m p))).filterMap
      (fun r => r.then_acts.allow_read), b = false := by
    intro b hb
    obtain ⟨r, hr, hba⟩ := List.mem_filterMap.mp hb
    have hrm := List.mem_filter.mp hr
    cases b
    · rfl
    · exact absurd hba (h r hrm.1 hrm.2)
  by_cases he : ((pol.rules.filter
      (fun r => match_rule r (query_context m p))).filterMap
      (fun r => r.then_acts.allow_read)).isEmpty
  · simp [he, hdef]
  · have hne := List.isEmpty_eq_false.mp (Bool.eq_false_iff.mpr he)
    obtain ⟨b, hb⟩ := List.exists_mem_of_ne_nil _ hne
    have : ¬ ((pol.rules.filter
        (fun r => match_rule r (query_context m p))).filterMap
        (fun r => r.then_acts.allow_read)).all id := by
      intro hallid
      have := List.all_eq_true.mp hallid b hb
      rw [hall b hb] at this
      exact Bool.false_ne_true this
    simp [he, this]

/-- Under the default policy, only `chat_response` queries can ever be
allowed: the only rule granting `allow_read: true`
(`allow_impacts_for_chat`) requires `request.purpose = "chat_response"`. -/
lemma default_policy_denies_non_chat (m : MemoryObject) (p : PurposeType)
    (hp : p ≠ .chat_response) :
    (evaluate_query default_policy m p).allowed = false := by
  apply evaluate_query_denied_of_no_allow _ _ _ rfl
  intro r hr hmatch
  have hpv : match_condition "request.purpose" (.scalar "chat_response")
      (query_context m p) = false := by
    cases p
    · exact absurd rfl hp
    all_goals rfl
  simp only [default_policy, List.mem_cons, List.not_mem_nil, or_false] at hr
  rcases hr with rfl | rfl | rfl | rfl
  · simp
  · exfalso
    simp [match_rule, hpv] at hmatch
  · simp
  · simp

/-- Provenance of the `events` component of the per-row loop. -/
lemma process_rows_events (pol : Policy) (p : PurposeType) :
    ∀ (ms : List MemoryObject) (i : String),
    i ∈ (process_rows pol p ms).events →
    ∃ m ∈ ms, m.id = i ∧ m.type = .event ∧ m.state ≠ .sealed ∧
      (evaluate_query pol m p).allowed = true := by
  intro ms
  induction ms with
  | nil => intro i hi; simp [process_rows] at hi
  | cons x xs ih =>
      intro i hi
      simp only [process_rows] at hi
      split at hi
      case isTrue hx =>
        split at hi
        case h_1 ht =>
          simp only at hi
          obtain ⟨m, hm, hrest⟩ := ih i hi
          exact ⟨m, List.mem_cons_of_mem _ hm, hrest⟩
        case h_2 ht =>
          simp only at hi
          obtain ⟨m, hm, hrest⟩ := ih i hi
          exact ⟨m, List.mem_cons_of_mem _ hm, hrest⟩
        case h_3 ht =>
          split at hi
          case isTrue hs =>
            simp only at hi
            obtain ⟨m, hm, hrest⟩ := ih i hi
            exact ⟨m, List.mem_cons_of_mem _ hm, hrest⟩
          case isFalse hs =>
            simp only [List.mem_cons] at hi
            rcases hi with rfl | hi
            · exact ⟨x, List.mem_cons_self _ _, rfl, ht, hs, hx⟩
            · obtain ⟨m, hm, hrest⟩ := ih i hi
              exact ⟨m, List.mem_cons_of_mem _ hm, hrest⟩
      case isFalse hx =>
        simp only at hi
        obtain ⟨m, hm, hrest⟩ := ih i hi
        exact ⟨m, List.mem_cons_of_mem _ hm, hrest⟩

/-- Provenance of the `seeds` component of the per-row loop. -/
lemma process_rows_seeds (pol : Policy) (p : PurposeType) :
    ∀ (ms : List MemoryObject) (s : SeedOut),
    s ∈ (process_rows pol p ms).seeds →
    ∃ m ∈ ms, m.id = s.id ∧ m.type = .seed ∧
      s.cues = (m.seed_payload.map (·.cues)).getD [] ∧
      (evaluate_query pol m p).allowed = true := by
  intro ms
  induction ms with
  | nil => intro s hs; simp [process_rows] at hs
  | cons x xs ih =>
      intro s hs
      simp only [process_rows] at hs
      split at hs
      case isTrue hx =>
        split at hs
        case h_1 ht =>
          simp only at hs
          obtain ⟨m, hm, hrest⟩ := ih s hs
          exact ⟨m, List.mem_cons_of_mem _ hm, hrest⟩
        case h_2 ht =>
          simp only [List.mem_cons] at hs
          rcases hs with rfl | hs
          · exact ⟨x, List.mem_cons_self _ _, rfl, ht, rfl, hx⟩
          · obtain ⟨m, hm, hrest⟩ := ih s hs
            exact ⟨m, List.mem_cons_of_mem _ hm, hrest⟩
        case h_3 ht =>
          split at hs <;> simp only at hs <;>
            (obtain ⟨m, hm, hrest⟩ := ih s hs
             exact ⟨m, List.mem_cons_of_mem _ hm, hrest⟩)
      case isFalse hx =>
        simp only at hs
        obtain ⟨m, hm, hrest⟩ := ih s hs
        exact ⟨m, List.mem_cons_of_mem _ hm, hrest⟩

/-- Provenance of the `impacts` component of the per-row loop. -/
lemma process_rows_impacts (pol : Policy) (p : PurposeType) :
    ∀ (ms : List MemoryObject) (c : Constraint),
    c ∈ (process_rows pol p ms).impacts →
    ∃ m ∈ ms, m.type = .impact ∧ c ∈ m.impact_payload.getD [] ∧
      (evaluate_query pol m p).allowed = true := by
  intro ms
  induction ms with
  | nil => intro c hc; simp [process_rows] at hc
  | cons x xs ih =>
      intro c hc
      simp only [process_rows] at hc
      split at hc
      case isTrue hx =>
        split at hc
        case h_1 ht =>
          simp only [List.mem_append] at hc
          rcases hc with hc | hc
          · exact ⟨x, List.mem_cons_self _ _, ht, hc, hx⟩
          · obtain ⟨m, hm, hrest⟩ := ih c hc
            exact ⟨m, List.mem_cons_of_mem _ hm, hrest⟩
        case h_2 ht =>
          simp only at hc
          obtain ⟨m, hm, hrest⟩ := ih c hc
          exact ⟨m, List.mem_cons_of_mem _ hm, hrest⟩
        case h_3 ht =>
          split at hc <;> simp only at hc <;>
            (obtain ⟨m, hm, hrest⟩ := ih c hc
             exact ⟨m, List.mem_cons_of_mem _ hm, hrest⟩)
      case isFalse hx =>
        simp only at hc
        obtain ⟨m, hm, hrest⟩ := ih c hc
        exact ⟨m, List.mem_cons_of_mem _ hm, hrest⟩

/-- Under the default policy a fetched-and-allowed row is never sealed:
for chat_response and task_execution the store query excludes sealed rows
up front, and for every other purpose nothing is allowed at all. -/
lemma fetched_allowed_not_sealed (store : List MemoryObject)
    (tenant_id : String) (scope : Scope) (p : PurposeType)
    (query_text : Option String) (limit : Nat) (m : MemoryObject)
    (hfetch : m ∈ query_memories store tenant_id scope (purpose_filters p)
      limit query_text)
    (hallow : (evaluate_query default_policy m p).allowed = true) :
    m.state ≠ .sealed := by
  by_cases hp : p = .chat_response
  · subst hp
    have hpass := query_memories_passes _ _ _ _ _ _ _ hfetch
    simp only [row_passes, purpose_filters, Bool.and_eq_true] at hpass
    intro hseal
    obtain ⟨⟨⟨_, hsl⟩, _⟩, _⟩ := hpass
    rw [hseal] at hsl
    simp [MemoryState.value] at hsl
  · by_cases hpt : p = .task_execution
    · subst hpt
      have hpass := query_memories_passes _ _ _ _ _ _ _ hfetch
      simp only [row_passes, purpose_filters, Bool.and_eq_true] at hpass
      intro hseal
      obtain ⟨⟨⟨_, hsl⟩, _⟩, _⟩ := hpass
      rw [hseal] at hsl
      simp [MemoryState.value] at hsl
    · have hden := default_policy_denies_non_chat m p hp
      rw [hden] at hallow
      exact absurd hallow Bool.false_ne_true

/-- Every id in a default-policy retrieval's `memory_ids` belongs to a
non-sealed store row. -/
lemma retrieve_memory_ids_not_sealed (store : List MemoryObject)
    (tenant_id : String) (scope : Scope) (p : PurposeType)
    (query_text : Option String) (limit : Nat) :
    ∀ i ∈ (retrieve_for_purpose default_policy store tenant_id scope p
      query_text limit).memory_ids,
    ∃ m ∈ store, m.id = i ∧ m.state ≠ .sealed := by
  intro i hi
  simp only [retrieve_for_purpose] at hi
  by_cases hp : p = .task_execution
  · rw [if_pos hp] at hi
    simp only [List.mem_map] at hi
    obtain ⟨m', hm', rfl⟩ := hi
    obtain ⟨hall, _⟩ := task_filter_sub _ _ hm'
    obtain ⟨hfetch, hallow⟩ := process_rows_allowed_mem _ _ _ _ hall
    exact ⟨m', query_memories_subset _ _ _ _ _ _ _ hfetch, rfl,
      fetched_allowed_not_sealed _ _ _ _ _ _ _ hfetch hallow⟩
  · rw [if_neg hp] at hi
    simp only [List.mem_map] at hi
    obtain ⟨m', hm', rfl⟩ := hi
    obtain ⟨hfetch, hallow⟩ := process_rows_allowed_mem _ _ _ _ hm'
    exact ⟨m', query_memories_subset _ _ _ _ _ _ _ hfetch, rfl,
      fetched_allowed_not_sealed _ _ _ _ _ _ _ hfetch hallow⟩

/-- `get_memory` is oblivious to content changes. -/
lemma get_memory_map_content (store : List MemoryObject)
    (f : MemoryObject → Content) (mid tid : String) :
    get_memory (store.map (fun m => { m with content := f m })) mid tid
      = (get_memory store mid tid).map (fun m => { m with content := f m }) := by
  simp only [get_memory]
  rw [List.find?_map]
  rfl

/-- `explain_collect` is oblivious to content changes. -/
lemma explain_collect_map_content (store : List MemoryObject)
    (f : MemoryObject → Content) (tid : String) :
    ∀ mids, explain_collect (store.map (fun m => { m with content := f m }))
        tid mids = explain_collect store tid mids := by
  intro mids
  induction mids with
  | nil => rfl
  | cons mid rest ih =>
      simp only [explain_collect, ih, get_memory_map_content]
      cases get_memory store mid tid <;> rfl

/-- C2: a sealed memory's `content.text` never surfaces. Under the default
policy: every id in a v2 query's `memory_ids` and `events` belongs to a
non-sealed store row; every surfaced seed `{id, cues}` and every surfaced
constraint record comes from a non-sealed row (so only constraint records,
seed cues and event ids appear, never sealed narrative); reconstruction is
a function of that same retrieval result only (emitting constraint
parameter values, seed cues and event counts); `explain` never reads any
memory's `content` (its output is invariant under arbitrary content
replacement); and every id in a `replay` result likewise belongs to a
non-sealed row, the rest of its output being counts. -/
theorem c2_sealed_content_never_surfaced (store : List MemoryObject)
    (tenant_id : String) (scope : Scope) (purpose : PurposeType)
    (query_text : Option String) (limit : Nat) :
    (∀ i ∈ (retrieve_for_purpose default_policy store tenant_id scope purpose
        query_text limit).memory_ids,
      ∃ m ∈ store, m.id = i ∧ m.state ≠ .sealed) ∧
    (∀ i ∈ (retrieve_for_purpose default_policy store tenant_id scope purpose
        query_text limit).events,
      ∃ m ∈ store, m.id = i ∧ m.type = .event ∧ m.state ≠ .sealed) ∧
    (∀ s ∈ (retrieve_for_purpose default_policy store tenant_id scope purpose
        query_text limit).seeds,
      ∃ m ∈ store, m.id = s.id ∧ m.type = .seed ∧ m.state ≠ .sealed ∧
        s.cues = (m.seed_payload.map (·.cues)).getD []) ∧
    (∀ c ∈ (retrieve_for_purpose default_policy store tenant_id scope purpose
        query_text limit).impacts,
      ∃ m ∈ store, m.type = .impact ∧ m.state ≠ .sealed ∧
        c ∈ m.impact_payload.getD []) ∧
    (∀ include_events,
      reconstruct_context default_policy store tenant_id scope purpose
          query_text include_events =
        reconstruct_from_result (retrieve_for_purpose default_policy store
          tenant_id scope purpose query_text 100) include_events) ∧
    (∀ (logs : List AccessLogRow) (alid : Option String)
        (mids : Option (List String)) (f : MemoryObject → Content),
      explain_decision (store.map (fun m => { m with content := f m })) logs
          tenant_id alid mids =
        explain_decision store logs tenant_id alid mids) ∧
    (∀ (logs : List AccessLogRow) (alid : String) (ovr : ReplayOverride)
        ids ni ns ne denied pv,
      replay_request store logs tenant_id alid ovr
          = .ok ids ni ns ne denied pv →
      ∀ i ∈ ids, ∃ m ∈ store, m.id = i ∧ m.state ≠ .sealed) := by
  have hev : ∀ i ∈ (retrieve_for_purpose default_policy store tenant_id scope
      purpose query_text limit).events,
      ∃ m ∈ store, m.id = i ∧ m.type = .event ∧ m.state ≠ .sealed := by
    intro i hi
    simp only [retrieve_for_purpose] at hi
    obtain ⟨m, hm, hid, htype, hseal, hallow⟩ :=
      process_rows_events default_policy purpose _ i hi
    exact ⟨m, query_memories_subset _ _ _ _ _ _ _ hm, hid, htype, hseal⟩
  refine ⟨retrieve_memory_ids_not_sealed store tenant_id scope purpose
      query_text limit, hev, ?_, ?_, fun _ => rfl, ?_, ?_⟩
  · intro s hs
    simp only [retrieve_for_purpose] at hs
    obtain ⟨m, hm, hid, htype, hcues, hallow⟩ :=
      process_rows_seeds default_policy purpose _ s hs
    exact ⟨m, query_memories_subset _ _ _ _ _ _ _ hm, hid, htype,
      fetched_allowed_not_sealed _ _ _ _ _ _ _ hm hallow, hcues⟩
  · intro c hc
    simp only [retrieve_for_purpose] at hc
    obtain ⟨m, hm, htype, hpc, hallow⟩ :=
      process_rows_impacts default_policy purpose _ c hc
    exact ⟨m, query_memories_subset _ _ _ _ _ _ _ hm, htype,
      fetched_allowed_not_sealed _ _ _ _ _ _ _ hm hallow, hpc⟩
  · intro logs alid mids f
    simp only [explain_decision, explain_collect_map_content]
  · intro logs alid ovr ids ni ns ne denied pv hok i hi
    simp only [replay_request] at hok
    cases hlog : logs.find? (fun l => l.log_id == alid) with
    | none => rw [hlog] at hok; exact ReplayResult.noConfusion hok
    | some log =>
        rw [hlog] at hok
        simp only [ReplayResult.ok.injEq] at hok
        obtain ⟨rfl, -, -, -, -, -⟩ := hok
        exact retrieve_memory_ids_not_sealed store tenant_id
          (ovr.scope.getD log.scope) (ovr.purpose.getD log.purpose)
          (ovr.query_text.getD log.query_text) 50 i hi

def c2_impact : MemoryObject :=
  { id := "mem_w2", tenant_id := "t_1", scope := ex_scope, type := .impact,
    truth_mode := .procedural, state := .active,
    ownership := ex_ownership, temporal := ex_temporal,
    content := {}, provenance := ex_provenance, impact_payload := some [] }

/-- C2 witness: the sealed-surfacing theorem applied to a store holding one
allowed impact, at the id the chat query returns. -/
theorem c2_sealed_content_never_surfaced_witness :
    ∃ m ∈ [c2_impact], m.id = "mem_w2" ∧ m.state ≠ .sealed :=
  (c2_sealed_content_never_surfaced [c2_impact] "t_1" ex_scope .chat_response
    none 50).1 "mem_w2" (by decide)

/-! ## Order theory for the v1 merge sort key -/

lemma chars_le_total : ∀ x y : List Char,
    chars_le x y = true ∨ chars_le y x = true := by
  intro x
  induction x with
  | nil => intro y; exact Or.inl rfl
  | cons c cs ih =>
      intro y
      cases y with
      | nil => exact Or.inr rfl
      | cons d ds =>
          simp only [chars_le, beq_iff_eq]
          by_cases hcd : c = d
          · have hdc : d = c := hcd.symm
            rw [if_pos hcd, if_pos hdc]
            exact ih ds
          · have hdc : ¬ d = c := fun h => hcd h.symm
            rw [if_neg hcd, if_neg hdc]
            rcases lt_trichotomy c d with hlt | heq | hgt
            · exact Or.inl (decide_eq_true hlt)
            · exact absurd heq hcd
            · exact Or.inr (decide_eq_true hgt)

lemma chars_le_trans : ∀ x y z : List Char,
    chars_le x y = true → chars_le y z = true → chars_le x z = true := by
  intro x
  induction x with
  | nil => intro y z _ _; rfl
  | cons c cs ih =>
      intro y z hxy hyz
      cases y with
      | nil => simp [chars_le] at hxy
      | cons d ds =>
          cases z with
          | nil => simp [chars_le] at hyz
          | cons e es =>
              simp only [chars_le, beq_iff_eq] at hxy hyz ⊢
              by_cases hcd : c = d <;> by_cases hde : d = e
              · rw [if_pos hcd] at hxy
                rw [if_pos hde] at hyz
                rw [if_pos (hcd.trans hde)]
                exact ih ds es hxy hyz
              · rw [if_pos hcd] at hxy
                rw [if_neg hde] at hyz
                have h1 : d < e := of_decide_eq_true hyz
                have hce : ¬ c = e := by rw [hcd]; exact hde
                rw [if_neg hce]
                exact decide_eq_true (by rw [hcd]; exact h1)
              · rw [if_neg hcd] at hxy
                rw [if_pos hde] at hyz
                have h1 : c < d := of_decide_eq_true hxy
                have hce : ¬ c = e := by rw [← hde]; exact hcd
                rw [if_neg hce]
                exact decide_eq_true (by rw [← hde]; exact h1)
              · rw [if_neg hcd] at hxy
                rw [if_neg hde] at hyz
                have h3 : c < e :=
                  lt_trans (of_decide_eq_true hxy) (of_decide_eq_true hyz)
                have hce : ¬ c = e := by
                  intro h
                  subst h
                  exact lt_irrefl _ h3
                rw [if_neg hce]
                exact decide_eq_true h3

lemma chars_le_antisymm : ∀ x y : List Char,
    chars_le x y = true → chars_le y x = true → x = y := by
  intro x
  induction x with
  | nil =>
      intro y _ hyx
      cases y with
      | nil => rfl
      | cons d ds => simp [chars_le] at hyx
  | cons c cs ih =>
      intro y hxy hyx
      cases y with
      | nil => simp [chars_le] at hxy
      | cons d ds =>
          simp only [chars_le, beq_iff_eq] at hxy hyx
          by_cases hcd : c = d
          · have hdc : d = c := hcd.symm
            rw [if_pos hcd] at hxy
            rw [if_pos hdc] at hyx
            rw [hcd, ih ds hxy hyx]
          · have hdc : ¬ d = c := fun h => hcd h.symm
            rw [if_neg hcd] at hxy
            rw [if_neg hdc] at hyx
            exact absurd (lt_trans (of_decide_eq_true hxy)
              (of_decide_eq_true hyx)) (lt_irrefl c)

lemma mkey_le_total : ∀ a b : MemDict,
    mkey_le a b = true ∨ mkey_le b a = true := by
  intro a b
  simp only [mkey_le, Bool.or_eq_true, decide_eq_true_eq, Bool.and_eq_true,
    beq_iff_eq]
  rcases Nat.lt_trichotomy a.created_at b.created_at with h | h | h
  · exact Or.inl (Or.inl h)
  · rcases chars_le_total a.id.data b.id.data with hc | hc
    · exact Or.inl (Or.inr ⟨h, hc⟩)
    · exact Or.inr (Or.inr ⟨h.symm, hc⟩)
  · exact Or.inr (Or.inl h)

lemma mkey_le_trans : ∀ a b c : MemDict,
    mkey_le a b = true → mkey_le b c = true → mkey_le a c = true := by
  intro a b c hab hbc
  simp only [mkey_le, Bool.or_eq_true, decide_eq_true_eq, Bool.and_eq_true,
    beq_iff_eq] at hab hbc ⊢
  rcases hab with h1 | ⟨h1, hc1⟩
  · rcases hbc with h2 | ⟨h2, _⟩
    · exact Or.inl (lt_trans h1 h2)
    · exact Or.inl (h2 ▸ h1)
  · rcases hbc with h2 | ⟨h2, hc2⟩
    · exact Or.inl (h1 ▸ h2)
    · exact Or.inr ⟨h1.trans h2, chars_le_trans _ _ _ hc1 hc2⟩

/-- Two rows each ≤ the other share the sort key. -/
lemma mkey_le_antisymm_key (a b : MemDict)
    (hab : mkey_le a b = true) (hba : mkey_le b a = true) :
    a.created_at = b.created_at ∧ a.id = b.id := by
  simp only [mkey_le, Bool.or_eq_true, decide_eq_true_eq, Bool.and_eq_true,
    beq_iff_eq] at hab hba
  rcases hab with h1 | ⟨h1, hc1⟩
  · rcases hba with h2 | ⟨h2, _⟩
    · exact absurd (lt_trans h1 h2) (lt_irrefl _)
    · exact absurd h1 (by rw [h2]; exact lt_irrefl _)
  · rcases hba with h2 | ⟨h2, hc2⟩
    · exact absurd h2 (by rw [h1]; exact lt_irrefl _)
    · refine ⟨h1, ?_⟩
      have := chars_le_antisymm _ _ hc1 hc2
      cases ha : a.id with
      | mk la =>
          cases hb : b.id with
          | mk lb =>
              rw [ha, hb] at this
              simpa using congrArg String.mk this

lemma insert_le_perm {α : Type} (le : α → α → Bool) (x : α) :
    ∀ l : List α, (insert_le le x l).Perm (x :: l) := by
  intro l
  induction l with
  | nil => exact List.Perm.refl _
  | cons y ys ih =>
      simp only [insert_le]
      split
      · exact List.Perm.refl _
      · exact (ih.cons y).trans (List.Perm.swap x y ys)

lemma sort_le_perm {α : Type} (le : α → α → Bool) :
    ∀ l : List α, (sort_le le l).Perm l := by
  intro l
  induction l with
  | nil => exact List.Perm.refl _
  | cons x xs ih =>
      exact (insert_le_perm le x (sort_le le xs)).trans (ih.cons x)

lemma insert_le_pairwise {α : Type} (le : α → α → Bool)
    (htot : ∀ a b, le a b = true ∨ le b a = true)
    (htrans : ∀ a b c, le a b = true → le b c = true → le a c = true)
    (x : α) :
    ∀ l : List α, l.Pairwise (fun a b => le a b = true) →
    (insert_le le x l).Pairwise (fun a b => le a b = true) := by
  intro l
  induction l with
  | nil => intro _; exact List.pairwise_singleton _ _
  | cons y ys ih =>
      intro hp
      obtain ⟨hy, hys⟩ := List.pairwise_cons.mp hp
      simp only [insert_le]
      split
      case isTrue hxy =>
        refine List.pairwise_cons.mpr ⟨?_, hp⟩
        intro z hz
        rcases List.mem_cons.mp hz with rfl | hz
        · exact hxy
        · exact htrans _ _ _ hxy (hy z hz)
      case isFalse hxy =>
        refine List.pairwise_cons.mpr ⟨?_, ih hys⟩
        intro z hz
        have hz' := (insert_le_perm le x ys).mem_iff.mp hz
        rcases List.mem_cons.mp hz' with rfl | hz'
        · rcases htot y z with h | h
          · exact h
          · exact absurd h hxy
        · exact hy z hz'

lemma sort_le_pairwise {α : Type} (le : α → α → Bool)
    (htot : ∀ a b, le a b = true ∨ le b a = true)
    (htrans : ∀ a b c, le a b = true → le b c = true → le a c = true) :
    ∀ l : List α, (sort_le le l).Pairwise (fun a b => le a b = true) := by
  intro l
  induction l with
  | nil => exact List.Pairwise.nil
  | cons x xs ih => exact insert_le_pairwise le htot htrans x _ ih

/-- With pairwise-distinct `(created_at, id)` sort keys, the stable sort of
a list is determined by its multiset of elements. -/
lemma sort_le_eq_of_perm (ms1 ms2 : List MemDict)
    (hperm : ms1.Perm ms2)
    (hkeys : ms1.Pairwise
      (fun a b => (a.created_at, a.id) ≠ (b.created_at, b.id))) :
    sort_le mkey_le ms1 = sort_le mkey_le ms2 := by
  have hp1 := sort_le_perm mkey_le ms1
  have hp2 := sort_le_perm mkey_le ms2
  have hk1 : (sort_le mkey_le ms1).Pairwise
      (fun a b => (a.created_at, a.id) ≠ (b.created_at, b.id)) :=
    (List.Perm.pairwise_iff (fun h he => h he.symm) hp1).mpr hkeys
  have hk2 : (sort_le mkey_le ms2).Pairwise
      (fun a b => (a.created_at, a.id) ≠ (b.created_at, b.id)) :=
    (List.Perm.pairwise_iff (fun h he => h he.symm) (hp2.trans hperm.symm)).mpr hkeys
  have hs1 := sort_le_pairwise mkey_le mkey_le_total mkey_le_trans ms1
  have hs2 := sort_le_pairwise mkey_le mkey_le_total mkey_le_trans ms2
  haveI : IsAntisymm MemDict (fun a b =>
      mkey_le a b = true ∧ (a.created_at, a.id) ≠ (b.created_at, b.id)) :=
    ⟨fun a b hab hba => False.elim (hab.2 (by
      have h := mkey_le_antisymm_key a b hab.1 hba.1
      rw [h.1, h.2]))⟩
  exact List.eq_of_perm_of_sorted
    ((hp1.trans hperm).trans hp2.symm)
    (hs1.and hk1) (hs2.and hk2)

/-- C8 (amended): the merge is a function of the multiset of memory
records — for any two orderings of the same records whose `(created_at,
id)` sort keys are pairwise distinct (true of any store snapshot, where
ids are unique), `merge_memories_deterministic` produces identical
`summary_text`, `summary_struct` and `confidence` for every scope. -/
theorem c8_merge_order_invariant (ms1 ms2 : List MemDict) (scope : String)
    (hperm : ms1.Perm ms2)
    (hkeys : ms1.Pairwise
      (fun a b => (a.created_at, a.id) ≠ (b.created_at, b.id))) :
    merge_memories_deterministic ms1 scope
      = merge_memories_deterministic ms2 scope := by
  have hsort := sort_le_eq_of_perm ms1 ms2 hperm hkeys
  have hemp : ms1.isEmpty = ms2.isEmpty := by
    have hlen := hperm.length_eq
    cases ms1 <;> cases ms2 <;> simp_all
  simp only [merge_memories_deterministic, hsort, hemp]

def c8_mem1 : MemDict :=
  { id := "m", value_json := .obj [("a", .s "1")], value_shape := "kv_map",
    created_at := 0 }

def c8_mem2 : MemDict :=
  { id := "m", value_json := .obj [("a", .s "2")], value_shape := "kv_map",
    created_at := 0 }

/-- C8 counterexample: for records sharing the same `(created_at, id)`
sort key, the merge is NOT independent of the input list's order — the
stable sort keeps the input order of key-ties, and the latest-wins kv map
of the `communication` scope then yields different `summary_struct`s for
the two orderings of the same records. -/
theorem c8_merge_order_dependent_counterexample :
    ([c8_mem1, c8_mem2] : List MemDict).Perm [c8_mem2, c8_mem1] ∧
    merge_memories_deterministic [c8_mem1, c8_mem2] "communication"
      ≠ merge_memories_deterministic [c8_mem2, c8_mem1] "communication" := by
  refine ⟨List.Perm.swap c8_mem2 c8_mem1 [], ?_⟩
  intro h
  have h2 := congrArg MergeResult.summary_struct h
  rw [show (merge_memories_deterministic [c8_mem1, c8_mem2]
        "communication").summary_struct
      = JVal.obj [("preferences", .obj [("a", .s "2")])] from rfl,
    show (merge_memories_deterministic [c8_mem2, c8_mem1]
        "communication").summary_struct
      = JVal.obj [("preferences", .obj [("a", .s "1")])] from rfl] at h2
  simp at h2

def c8_w1 : MemDict :=
  { id := "a", value_json := .obj [("k", .s "x")], value_shape := "kv_map",
    created_at := 1 }

def c8_w2 : MemDict :=
  { id := "b", value_json := .obj [("k", .s "y")], value_shape := "kv_map",
    created_at := 0 }

/-- C8 witness: order invariance at concrete records with distinct keys. -/
theorem c8_merge_order_invariant_witness :
    merge_memories_deterministic [c8_w1, c8_w2] "communication"
      = merge_memories_deterministic [c8_w2, c8_w1] "communication" :=
  c8_merge_order_invariant [c8_w1, c8_w2] [c8_w2, c8_w1] "communication"
    (List.Perm.swap c8_w2 c8_w1 []) (by decide)
